import Mathlib

/-!
# simulproc: a shallow embedding of the interpreter

The development embeds the C sources `exec.c`, `machine.c` and `instruction.c`
(with the type declarations of `machine.h` / `instruction.h`) as Lean
functions over an explicit machine state.

* A `Word` (`uint32_t`) and every `unsigned` is a `Nat` kept below `2^32`;
  arithmetic that may wrap is written with an explicit `% 4294967296`.
* The bit-field union `Instruction` is one raw 32-bit word with accessor
  functions; the signed bit-fields (`_value`, `_offset`) are `Int`.
* `error(...)` terminates the simulator: a function whose C body may call
  `error` returns the fault together with the machine as it is at that moment.
* A read outside the array `_text` or outside a name table of the
  disassembler has no defined behaviour in C: the turn of the simulation loop
  that makes one has the outcome `Undefined`, and a printing function that
  makes one returns `none`.
* The sizes of the C types are those of an LP64 platform: `int` and `unsigned`
  have 32 bits, `size_t` has 64 bits.
* Field names drop the leading underscore of the C names.
-/

namespace Simulproc

/-! ## Data model (`machine.h`, `instruction.h`) -/

/-- Number of general registers, `NREGISTERS`. -/
abbrev NREGISTERS : Nat := 16

/-- Minimal size of the execution stack, `MINSTACKSIZE`. -/
abbrev MINSTACKSIZE : Nat := 10

/-- Condition code `Condition_Code`. -/
inductive Condition_Code where
  | CC_U
  | CC_Z
  | CC_P
  | CC_N
deriving DecidableEq

/-- Error codes, as they are dispatched on in `error.c`. -/
inductive Error where
  | ERR_NOERROR
  | ERR_UNKNOWN
  | ERR_ILLEGAL
  | ERR_CONDITION
  | ERR_IMMEDIATE
  | ERR_SEGTEXT
  | ERR_SEGDATA
  | ERR_SEGSTACK
deriving DecidableEq

/-- Result of one turn of the simulation loop: `decode_execute` returned `true`
(`Continue`), returned `false` (`Halted`), `error(err, addr)` ended the run
(`Fault`), or the turn read outside the array `_text` or outside one of the
name tables of the disassembler (`Undefined`): from such a read on, the C
program has no defined behaviour. -/
inductive Outcome where
  | Continue
  | Halted
  | Fault (err : Error) (addr : Nat)
  | Undefined
deriving DecidableEq

/-- Operation codes `Code_Op`. -/
abbrev ILLOP : Nat := 0
abbrev NOP : Nat := 1
abbrev LOAD : Nat := 2
abbrev STORE : Nat := 3
abbrev ADD : Nat := 4
abbrev SUB : Nat := 5
abbrev BRANCH : Nat := 6
abbrev CALL : Nat := 7
abbrev RET : Nat := 8
abbrev PUSH : Nat := 9
abbrev POP : Nat := 10
abbrev HALT : Nat := 11

/-- Branch conditions `Condition`. -/
abbrev NC : Nat := 0
abbrev EQ : Nat := 1
abbrev NE : Nat := 2
abbrev GT : Nat := 3
abbrev GE : Nat := 4
abbrev LT : Nat := 5
abbrev LE : Nat := 6

/-- The union `Instruction`: its `_raw` member, a 32-bit word. The bit-fields
are read from it, first field in the low bits. -/
structure Instruction where
  raw : Nat
deriving DecidableEq

namespace Instruction

/-- Field `_cop : 6`, bits 0..5. -/
def cop (instr : Instruction) : Nat := instr.raw % 64

/-- Field `_immediate : 1`, bit 6. -/
def immediate (instr : Instruction) : Bool := instr.raw / 64 % 2 != 0

/-- Field `_indexed : 1`, bit 7. -/
def indexed (instr : Instruction) : Bool := instr.raw / 128 % 2 != 0

/-- Field `_regcond : 4`, bits 8..11. -/
def regcond (instr : Instruction) : Nat := instr.raw / 256 % 16

/-- Field `instr_absolute._address : 20` (unsigned), bits 12..31. -/
def address (instr : Instruction) : Nat := instr.raw / 4096 % 1048576

/-- Field `instr_immediate._value : 20` (signed), bits 12..31. -/
def value (instr : Instruction) : Int :=
  if instr.raw / 4096 % 1048576 < 524288 then ((instr.raw / 4096 % 1048576 : Nat) : Int)
  else ((instr.raw / 4096 % 1048576 : Nat) : Int) - 1048576

/-- Field `instr_indexed._rindex : 4`, bits 12..15. -/
def rindex (instr : Instruction) : Nat := instr.raw / 4096 % 16

/-- Field `instr_indexed._offset : 16` (signed), bits 16..31. -/
def offset (instr : Instruction) : Int :=
  if instr.raw / 65536 % 65536 < 32768 then ((instr.raw / 65536 % 65536 : Nat) : Int)
  else ((instr.raw / 65536 % 65536 : Nat) : Int) - 65536

end Instruction

/-- Conversion of a signed `int` to `unsigned` / `Word`: reduction modulo `2^32`. -/
def toWord (z : Int) : Nat := (z % 4294967296).toNat

/-- Unsigned 32-bit addition. -/
def wadd (a b : Nat) : Nat := (a + b) % 4294967296

/-- Unsigned 32-bit subtraction. -/
def wsub (a b : Nat) : Nat := (a + (4294967296 - b % 4294967296)) % 4294967296

/-- The structure `Machine`. `text` and `data` are the arrays behind the
pointers `_text` and `_data`. -/
structure Machine where
  text : List Instruction
  textsize : Nat
  data : List Nat
  datasize : Nat
  dataend : Nat
  pc : Nat
  cc : Condition_Code
  registers : List Nat
deriving DecidableEq

/-- Read of `pmach->_registers[r]`. -/
def reg (pmach : Machine) (r : Nat) : Nat := pmach.registers.getD r 0

/-- Write `pmach->_registers[r] = v`. -/
def setReg (pmach : Machine) (r : Nat) (v : Nat) : Machine :=
  { pmach with registers := pmach.registers.set r v }

/-- The macro `_sp`, a synonym of `_registers[NREGISTERS - 1]`. -/
def sp (pmach : Machine) : Nat := reg pmach (NREGISTERS - 1)

/-- Write to `_sp`. -/
def setSp (pmach : Machine) (v : Nat) : Machine := setReg pmach (NREGISTERS - 1) v

/-- Read of `pmach->_data[a]`. A cell outside the array reads as 0 in the model. -/
def readData (pmach : Machine) (a : Nat) : Nat := pmach.data.getD a 0

/-- Write `pmach->_data[a] = v`. A write outside the array is dropped in the model. -/
def writeData (pmach : Machine) (a : Nat) (v : Nat) : Machine :=
  { pmach with data := pmach.data.set a v }

/-- The values a `Machine` can hold in C: the two arrays have the announced
sizes, there are `NREGISTERS` registers, and every `unsigned` is below `2^32`. -/
def Machine.WF (m : Machine) : Prop :=
  m.text.length = m.textsize ∧ m.data.length = m.datasize ∧
  m.registers.length = NREGISTERS ∧
  m.textsize < 4294967296 ∧ m.datasize < 4294967296 ∧ m.dataend < 4294967296 ∧
  m.pc < 4294967296 ∧
  (∀ w ∈ m.text, w.raw < 4294967296) ∧ (∀ w ∈ m.data, w < 4294967296) ∧
  (∀ w ∈ m.registers, w < 4294967296)

instance (m : Machine) : Decidable m.WF := by
  unfold Machine.WF; infer_instance

/-! ## Execution of one instruction (`exec.c`) -/

/-- Source function `refresh_cc`: the parameter `reg` is an `unsigned int`. -/
def refresh_cc (pmach : Machine) (reg : Nat) : Machine :=
  if reg < 0 then { pmach with cc := Condition_Code.CC_N }
  else if reg > 0 then { pmach with cc := Condition_Code.CC_P }
  else { pmach with cc := Condition_Code.CC_Z }

/-- Source function `check_stack`: `some` fault when `error(ERR_SEGSTACK, addr)` is called. -/
def check_stack (pmach : Machine) (addr : Nat) : Option Outcome :=
  if sp pmach < pmach.dataend ∨ sp pmach ≥ pmach.datasize then
    some (Outcome.Fault Error.ERR_SEGSTACK addr)
  else none

/-- Source function `check_immediate`: `some` fault when `error(ERR_IMMEDIATE, addr)` is called. -/
def check_immediate (instr : Instruction) (addr : Nat) : Option Outcome :=
  if instr.immediate then some (Outcome.Fault Error.ERR_IMMEDIATE addr) else none

/-- Source function `allowed_condition`: the boolean it returns, or the fault of its `default` case. -/
def allowed_condition (pmach : Machine) (instr : Instruction) (addr : Nat) :
    Except Outcome Bool :=
  if instr.regcond = NC then .ok true
  else if instr.regcond = EQ then .ok (pmach.cc == Condition_Code.CC_Z)
  else if instr.regcond = NE then .ok (pmach.cc != Condition_Code.CC_Z)
  else if instr.regcond = GT then .ok (pmach.cc == Condition_Code.CC_P)
  else if instr.regcond = GE then
    .ok (pmach.cc == Condition_Code.CC_P || pmach.cc == Condition_Code.CC_Z)
  else if instr.regcond = LT then .ok (pmach.cc == Condition_Code.CC_N)
  else if instr.regcond = LE then
    .ok (pmach.cc == Condition_Code.CC_N || pmach.cc == Condition_Code.CC_Z)
  else .error (Outcome.Fault Error.ERR_CONDITION addr)

/-- Source function `get_address`: the sum of a `Word` and a signed offset is an unsigned sum. -/
def get_address (pmach : Machine) (instr : Instruction) : Nat :=
  if instr.indexed then wadd (reg pmach instr.rindex) (toWord instr.offset)
  else instr.address

/-- Source function `check_data_addr`: `some` fault when `error(ERR_SEGDATA, addr)` is called. -/
def check_data_addr (pmach : Machine) (data_addr : Nat) (addr : Nat) : Option Outcome :=
  if data_addr > pmach.datasize then some (Outcome.Fault Error.ERR_SEGDATA addr) else none

/-- Source function `load`. -/
def load (pmach : Machine) (instr : Instruction) (addr : Nat) : Outcome × Machine :=
  if instr.immediate then
    let pmach1 := setReg pmach instr.regcond (toWord instr.value)
    (Outcome.Continue, refresh_cc pmach1 (reg pmach1 instr.regcond))
  else
    let address := get_address pmach instr
    match check_data_addr pmach address addr with
    | some f => (f, pmach)
    | none =>
      let pmach1 := setReg pmach instr.regcond (readData pmach address)
      (Outcome.Continue, refresh_cc pmach1 (reg pmach1 instr.regcond))

/-- Source function `store`. -/
def store (pmach : Machine) (instr : Instruction) (addr : Nat) : Outcome × Machine :=
  match check_immediate instr addr with
  | some f => (f, pmach)
  | none =>
    let address := get_address pmach instr
    match check_data_addr pmach address addr with
    | some f => (f, pmach)
    | none => (Outcome.Continue, writeData pmach address (reg pmach instr.regcond))

/-- Source function `add`. -/
def add (pmach : Machine) (instr : Instruction) (addr : Nat) : Outcome × Machine :=
  if instr.immediate then
    let pmach1 := setReg pmach instr.regcond
      (wadd (reg pmach instr.regcond) (toWord instr.value))
    (Outcome.Continue, refresh_cc pmach1 (reg pmach1 instr.regcond))
  else
    let address := get_address pmach instr
    match check_data_addr pmach address addr with
    | some f => (f, pmach)
    | none =>
      let pmach1 := setReg pmach instr.regcond
        (wadd (reg pmach instr.regcond) (readData pmach address))
      (Outcome.Continue, refresh_cc pmach1 (reg pmach1 instr.regcond))

/-- Source function `sub`. -/
def sub (pmach : Machine) (instr : Instruction) (addr : Nat) : Outcome × Machine :=
  if instr.immediate then
    let pmach1 := setReg pmach instr.regcond
      (wsub (reg pmach instr.regcond) (toWord instr.value))
    (Outcome.Continue, refresh_cc pmach1 (reg pmach1 instr.regcond))
  else
    let address := get_address pmach instr
    match check_data_addr pmach address addr with
    | some f => (f, pmach)
    | none =>
      let pmach1 := setReg pmach instr.regcond
        (wsub (reg pmach instr.regcond) (readData pmach address))
      (Outcome.Continue, refresh_cc pmach1 (reg pmach1 instr.regcond))

/-- Source function `branch`. -/
def branch (pmach : Machine) (instr : Instruction) (addr : Nat) : Outcome × Machine :=
  match check_immediate instr addr with
  | some f => (f, pmach)
  | none =>
    match allowed_condition pmach instr addr with
    | .error f => (f, pmach)
    | .ok false => (Outcome.Continue, pmach)
    | .ok true =>
      let address := get_address pmach instr
      (Outcome.Continue, { pmach with pc := address })

/-- Source function `call`: `_data[_sp--] = _pc`, then the target is computed and stored in `_pc`. -/
def call (pmach : Machine) (instr : Instruction) (addr : Nat) : Outcome × Machine :=
  match check_immediate instr addr with
  | some f => (f, pmach)
  | none =>
    match check_stack pmach addr with
    | some f => (f, pmach)
    | none =>
      match allowed_condition pmach instr addr with
      | .error f => (f, pmach)
      | .ok false => (Outcome.Continue, pmach)
      | .ok true =>
        let pmach1 := writeData pmach (sp pmach) pmach.pc
        let pmach2 := setSp pmach1 (wsub (sp pmach1) 1)
        let address := get_address pmach2 instr
        (Outcome.Continue, { pmach2 with pc := address })

/-- Source function `ret`. -/
def ret (pmach : Machine) (_instr : Instruction) (addr : Nat) : Outcome × Machine :=
  let pmach1 := setSp pmach (wadd (sp pmach) 1)
  match check_stack pmach1 addr with
  | some f => (f, pmach1)
  | none => (Outcome.Continue, { pmach1 with pc := readData pmach1 (sp pmach1) })

/-- Source function `push`. -/
def push (pmach : Machine) (instr : Instruction) (addr : Nat) : Outcome × Machine :=
  match check_stack pmach addr with
  | some f => (f, pmach)
  | none =>
    if instr.immediate then
      let pmach1 := writeData pmach (sp pmach) (toWord instr.value)
      (Outcome.Continue, setSp pmach1 (wsub (sp pmach1) 1))
    else
      let address := get_address pmach instr
      match check_data_addr pmach address addr with
      | some f => (f, pmach)
      | none =>
        let pmach1 := writeData pmach (sp pmach) (readData pmach address)
        (Outcome.Continue, setSp pmach1 (wsub (sp pmach1) 1))

/-- Source function `pop`. -/
def pop (pmach : Machine) (instr : Instruction) (addr : Nat) : Outcome × Machine :=
  match check_immediate instr addr with
  | some f => (f, pmach)
  | none =>
    let address := get_address pmach instr
    match check_data_addr pmach address addr with
    | some f => (f, pmach)
    | none =>
      let pmach1 := setSp pmach (wadd (sp pmach) 1)
      match check_stack pmach1 addr with
      | some f => (f, pmach1)
      | none => (Outcome.Continue, writeData pmach1 address (readData pmach1 (sp pmach1)))

/-- Source function `decode_execute`: `addr` is `_pc - 1`, the program counter having been advanced. -/
def decode_execute (pmach : Machine) (instr : Instruction) : Outcome × Machine :=
  let addr := wsub pmach.pc 1
  if instr.cop = LOAD then load pmach instr addr
  else if instr.cop = STORE then store pmach instr addr
  else if instr.cop = ADD then add pmach instr addr
  else if instr.cop = SUB then sub pmach instr addr
  else if instr.cop = BRANCH then branch pmach instr addr
  else if instr.cop = CALL then call pmach instr addr
  else if instr.cop = RET then ret pmach instr addr
  else if instr.cop = PUSH then push pmach instr addr
  else if instr.cop = POP then pop pmach instr addr
  else if instr.cop = HALT then (Outcome.Halted, pmach)
  else if instr.cop = NOP then (Outcome.Continue, pmach)
  else if instr.cop = ILLOP then (Outcome.Fault Error.ERR_ILLEGAL addr, pmach)
  else (Outcome.Fault Error.ERR_UNKNOWN addr, pmach)

/-! ## Disassembly (`instruction.c`) -/

/-- The table `cop_names`. -/
def cop_names : List String :=
  ["ILLOP", "NOP", "LOAD", "STORE", "ADD", "SUB", "BRANCH", "CALL", "RET", "PUSH", "POP", "HALT"]

/-- The table `condition_names`. -/
def condition_names : List String := ["NC", "EQ", "NE", "GT", "GE", "LT", "LE"]

/-- Conversion `%d` of `printf`. -/
def fmt_d (z : Int) : String := toString z

/-- Conversion `%+d` of `printf`: the sign is always written. -/
def fmt_plus_d (z : Int) : String := if 0 ≤ z then "+" ++ toString z else toString z

/-- Conversion `%02d` of `printf` for a value that is not negative. -/
def fmt_02d (n : Nat) : String := if n < 10 then "0" ++ toString n else toString n

/-- Conversion `%04x` of `printf` for a value that is not negative. -/
def fmt_04x (n : Nat) : String :=
  String.mk (List.replicate (4 - (Nat.toDigits 16 n).length) '0' ++ Nat.toDigits 16 n)

/-- Source function `print_register`. -/
def print_register (instr : Instruction) : String := "R" ++ fmt_02d instr.regcond ++ ", "

/-- Source function `print_condition`: `none` when `_regcond` is not an index
of the table `condition_names`, where the C function reads past the table. -/
def print_condition (instr : Instruction) : Option String :=
  match condition_names[instr.regcond]? with
  | some name => some (name ++ " ")
  | none => none

/-- Source function `print_op`. -/
def print_op (instr : Instruction) : String :=
  if instr.immediate then "#" ++ fmt_d instr.value
  else if instr.indexed then fmt_plus_d instr.offset ++ "[" ++ ("R" ++ fmt_02d instr.rindex ++ "]")
  else "@" ++ fmt_04x instr.address

/-- Source function `print_instruction`: the text printed, or `none` when one
of the two table lookups is out of the bounds of its table. The lookup in
`cop_names` comes first, before the `switch`, which has no `default`. -/
def print_instruction (instr : Instruction) (_addr : Nat) : Option String :=
  match cop_names[instr.cop]? with
  | none => none
  | some name =>
    if instr.cop = ILLOP ∨ instr.cop = NOP ∨ instr.cop = RET ∨ instr.cop = HALT then
      some (name ++ " ")
    else if instr.cop = LOAD ∨ instr.cop = STORE ∨ instr.cop = ADD ∨ instr.cop = SUB then
      some (name ++ " " ++ print_register instr ++ print_op instr)
    else if instr.cop = BRANCH ∨ instr.cop = CALL then
      match print_condition instr with
      | some c => some (name ++ " " ++ c ++ print_op instr)
      | none => none
    else if instr.cop = PUSH ∨ instr.cop = POP then
      some (name ++ " " ++ print_op instr)
    else some (name ++ " ")

/-- Source function `trace` (`exec.c`): the line printed, or `none` when
`print_instruction` reads outside one of its tables. -/
def trace (msg : String) (_pmach : Machine) (instr : Instruction) (addr : Nat) :
    Option String :=
  match print_instruction instr addr with
  | some t => some ("TRACE: " ++ msg ++ ": 0x" ++ fmt_04x addr ++ ": " ++ t ++ "\n")
  | none => none

/-! ## Loader and simulation loop (`machine.c`) -/

/-- Source function `load_program`: every field of `*pmach` is overwritten, so the machine it
leaves does not depend on the previous contents; the loop sets the
`NREGISTERS` registers to 0 and `_sp` is then set to `datasize - 1`. -/
def load_program (textsize : Nat) (text : List Instruction) (datasize : Nat)
    (data : List Nat) (dataend : Nat) : Machine :=
  setSp
    { text := text
      textsize := textsize
      data := data
      datasize := datasize
      dataend := dataend
      pc := 0
      cc := Condition_Code.CC_U
      registers := List.replicate NREGISTERS 0 }
    (wsub datasize 1)

/-- The instruction `pmach->_text[pmach->_pc]`. -/
def fetch (pmach : Machine) : Instruction := pmach.text.getD pmach.pc ⟨0⟩

/-- One turn of the loop of `simul`, in the order of the source:
`trace("Executing", pmach, pmach->_text[pmach->_pc], pmach->_pc)`, then the
bound check on `_pc`, then `decode_execute(pmach, pmach->_text[pmach->_pc++])`.
The argument of `trace` is read before the bound check: when `_pc` is not an
index of the array `_text`, and when `trace` reads outside a name table, the
outcome is `Undefined` and the machine is returned as it is at that moment.
The call of `debug_ask` only reads the keyboard and prints; it is not
represented. -/
def step (pmach : Machine) : Outcome × Machine :=
  match pmach.text[pmach.pc]? with
  | none => (Outcome.Undefined, pmach)
  | some instr =>
    match trace "Executing" pmach instr pmach.pc with
    | none => (Outcome.Undefined, pmach)
    | some _ =>
      if pmach.pc ≥ pmach.textsize then
        (Outcome.Fault Error.ERR_SEGTEXT (wsub pmach.pc 1), pmach)
      else
        decode_execute { pmach with pc := wadd pmach.pc 1 } instr

/-- The loop of `simul`, cut after `fuel` turns: it goes on while
`decode_execute` returns `true`. -/
def simul : Nat → Machine → Outcome × Machine
  | 0, pmach => (Outcome.Continue, pmach)
  | fuel + 1, pmach =>
    match step pmach with
    | (Outcome.Continue, pmach1) => simul fuel pmach1
    | r => r

/-- Conversion of a byte count to `int` (32 bits, two's complement: the value
modulo `2^32`, read as signed), as when the result of `read` or `write` is
stored in `bits_read` or `bits_written`. -/
def toInt (n : Nat) : Int :=
  if n % 4294967296 < 2147483648 then ((n % 4294967296 : Nat) : Int)
  else ((n % 4294967296 : Nat) : Int) - 4294967296

/-- Conversion of an `int` to `size_t` (64 bits: the value modulo `2^64`), as
when `bits_read` is compared with a byte count `n * sizeof(...)`. -/
def toSizeT (z : Int) : Nat := (z % 18446744073709551616).toNat

/-- Source function `read_program`, on the sequence of 32-bit words held by the
file: the three sizes, `textsize` instruction words, `datasize` data words.
Each `read` delivers the words requested as far as the file holds them; the
number of bytes it returns is stored in the `int` `bits_read` and compared
with the byte count requested, a `size_t`. The result is `none` where the C
function leaves through `exit(1)`. Words after the data segment are not read.
Failures of `open`, `malloc` and `close` are not represented. -/
def read_program (file : List Nat) : Option Machine :=
  match file with
  | textsize :: datasize :: dataend :: rest =>
    let text := (rest.take textsize).map Instruction.mk
    if toSizeT (toInt (4 * text.length)) ≠ 4 * textsize then none
    else
      let data := (rest.drop textsize).take datasize
      if toSizeT (toInt (4 * data.length)) ≠ 4 * datasize then none
      else some (load_program textsize text datasize data dataend)
  | _ => none

/-- Source function `dump_memory`: the words written to the binary dump, i.e.
the three sizes, `_text[i]._raw` for `i < _textsize`, and the `_datasize`
words of `_data`, written by one `write` whose result is stored in the `int`
`bits_written` and compared with the byte count, a `size_t`. The result is
`none` where the C function does not complete the dump: it leaves through
`exit(1)` after that comparison, or the `int` counter `i` of its loops
overflows (a size of `2^31` or more). The text printed on the standard output
is not represented. -/
def dump_memory (pmach : Machine) : Option (List Nat) :=
  if pmach.textsize ≥ 2147483648 ∨ pmach.datasize ≥ 2147483648 then none
  else if toSizeT (toInt (4 * pmach.datasize)) ≠ 4 * pmach.datasize then none
  else
    some ([pmach.textsize, pmach.datasize, pmach.dataend] ++
      (List.range pmach.textsize).map (fun i => (pmach.text.getD i ⟨0⟩).raw) ++
      (List.range pmach.datasize).map (fun i => readData pmach i))

/-! ## Packing of instruction words -/

/-- Packing of the common fields and of a 20-bit payload at the bit positions
of the instruction layout: opcode in bits 0..5, I in bit 6, X in bit 7,
regcond in bits 8..11, payload in bits 12..31. In the C sources a word is
packed by assigning the bit-fields of the union `Instruction`. -/
def pack (cop : Nat) (i x : Bool) (regcond : Nat) (payload : Nat) : Instruction :=
  ⟨cop + 64 * i.toNat + 128 * x.toNat + 256 * regcond + 4096 * payload⟩

/-- Packing with an absolute address (`instr_absolute`). -/
def pack_absolute (cop : Nat) (i x : Bool) (regcond : Nat) (address : Nat) : Instruction :=
  pack cop i x regcond address

/-- Packing with a signed immediate value (`instr_immediate`): the payload is
the value on 20 bits in two's complement. -/
def pack_immediate (cop : Nat) (i x : Bool) (regcond : Nat) (value : Int) : Instruction :=
  pack cop i x regcond (value % 1048576).toNat

/-- Packing with an index register and a signed offset (`instr_indexed`): the
index register in bits 12..15, the offset on 16 bits in two's complement in
bits 16..31. -/
def pack_indexed (cop : Nat) (i x : Bool) (regcond : Nat) (rindex : Nat) (offset : Int) :
    Instruction :=
  pack cop i x regcond (rindex + 16 * (offset % 65536).toNat)

/-! ## Notions used to state the claims -/

/-- The stack bound that every instruction re-establishes: `_sp + 1`, on 32
bits, lies between `dataend` and `datasize`. `_sp` is the next free cell, so
after the push that fills the cell `dataend` it is `dataend - 1`. -/
def StackInv (m : Machine) : Prop :=
  m.dataend ≤ (sp m + 1) % 4294967296 ∧ (sp m + 1) % 4294967296 ≤ m.datasize

/-- The instruction is a LOAD, ADD or SUB whose destination register is
register 15, which is `_sp`. -/
def writes_sp (instr : Instruction) : Bool :=
  (instr.cop == LOAD || instr.cop == ADD || instr.cop == SUB) && instr.regcond == NREGISTERS - 1

/-- Fields that no instruction changes: the text, the announced sizes, the
number of registers and the number of data cells. -/
def Keeps (m m2 : Machine) : Prop :=
  m2.text = m.text ∧ m2.textsize = m.textsize ∧ m2.datasize = m.datasize ∧
  m2.dataend = m.dataend ∧ m2.registers.length = m.registers.length ∧
  m2.data.length = m.data.length

/-- The machines reached from `s0` by any number of steps that each return
`Continue` and whose fetched instruction satisfies `ok`. -/
inductive ContinueReach (ok : Instruction → Prop) (s0 : Machine) : Machine → Prop where
  | refl : ContinueReach ok s0 s0
  | tail {s1 s2 : Machine} : ContinueReach ok s0 s1 → ok (fetch s1) →
      step s1 = (Outcome.Continue, s2) → ContinueReach ok s0 s2

/-- The machine is about to execute `CALL NC, @0` placed at address 0. -/
def AtSelfCall (s : Machine) : Prop :=
  s.pc = 0 ∧ 0 < s.textsize ∧ (fetch s).cop = CALL ∧ (fetch s).immediate = false ∧
  (fetch s).indexed = false ∧ (fetch s).regcond = NC ∧ (fetch s).address = 0 ∧
  s.registers.length = 16 ∧ s.datasize < 4294967296

/-- Between `s` and `s2` no register other than `d` and no data cell differs. -/
def OnlyRegChanged (s s2 : Machine) (d : Nat) : Prop :=
  (∀ r, r ≠ d → reg s2 r = reg s r) ∧ s2.data = s.data

/-- Between `s` and `s2` the data segment, the condition code and the
registers 0..14 are the same (register 15, which is `_sp`, and `pc` may
differ). -/
def FaultFrame (s s2 : Machine) : Prop :=
  s2.data = s.data ∧ s2.cc = s.cc ∧ ∀ r, r < 15 → reg s2 r = reg s r

/-! ## Example programs used in the closed statements -/

/-- Sixteen zero data words. -/
def zeros16 : List Nat := List.replicate 16 0

/-- The word of `LOAD R0, #-1`: cop 2, I = 1, regcond 0, payload 0xFFFFF. -/
def instr_load_r0_minus1 : Instruction := ⟨4294963266⟩

/-- The word of `LOAD R0, @16`: cop 2, I = 0, X = 0, regcond 0, address 16. -/
def instr_load_r0_at16 : Instruction := ⟨65538⟩

/-- The word of `LOAD R0, @17`: cop 2, I = 0, X = 0, regcond 0, address 17. -/
def instr_load_r0_at17 : Instruction := ⟨69634⟩

/-- The word of `STORE R0, #0` (immediate flag set): cop 3, I = 1. -/
def instr_store_imm : Instruction := ⟨67⟩

/-- The word of `LOAD R3, #7`: cop 2, I = 1, regcond 3, payload 7. -/
def instr_load_r3_7 : Instruction := ⟨29506⟩

/-- The word of `LOAD R15, #0`: cop 2, I = 1, regcond 15, payload 0. -/
def instr_load_r15_0 : Instruction := ⟨3906⟩

/-- The word of `PUSH #0`: cop 9, I = 1, payload 0. -/
def instr_push_0 : Instruction := ⟨73⟩

/-- The word of `CALL NC, @2`: cop 7, I = 0, X = 0, regcond 0, address 2. -/
def instr_call_nc_at2 : Instruction := ⟨8199⟩

/-- The word of `HALT`: cop 11. -/
def instr_halt : Instruction := ⟨11⟩

/-- The word of `RET`: cop 8. -/
def instr_ret : Instruction := ⟨8⟩

/-- The word of `CALL NC, @0`: cop 7, I = 0, X = 0, regcond 0, address 0. -/
def instr_call_nc_at0 : Instruction := ⟨7⟩

/-- The word 12: opcode 12, outside the enumerated opcodes. -/
def instr_cop12 : Instruction := ⟨12⟩

/-- The word of a BRANCH whose condition field is 7: cop 6, regcond 7. -/
def instr_branch_cond7 : Instruction := ⟨1798⟩

/-- The word of `SUB R0, #1`: cop 5, I = 1, regcond 0, payload 1. -/
def instr_sub_r0_1 : Instruction := ⟨4165⟩

/-- The word of `STORE R3, @2`: cop 3, I = 0, X = 0, regcond 3, address 2. -/
def instr_store_r3_at2 : Instruction := ⟨8963⟩

/-- The word of `BRANCH NC, @5`: cop 6, I = 0, X = 0, regcond 0, address 5. -/
def instr_branch_nc_at5 : Instruction := ⟨20486⟩

/-- The word of `PUSH #7`: cop 9, I = 1, payload 7. -/
def instr_push_7 : Instruction := ⟨28745⟩

/-- The word of `POP @2`: cop 10, I = 0, X = 0, address 2. -/
def instr_pop_at2 : Instruction := ⟨8202⟩

/-- The freshly loaded machine of the program `PUSH #7; POP @2`, with
`datasize = 16` and `dataend = 8`. -/
def machine_push_pop : Machine := load_program 2 [instr_push_7, instr_pop_at2] 16 zeros16 8

/-- The word of a BRANCH with the immediate flag set and the condition field
7: cop 6, I = 1, regcond 7. -/
def instr_branch_imm_cond7 : Instruction := ⟨1862⟩

/-- The word 40: opcode 40, outside the enumerated opcodes. -/
def instr_cop40 : Instruction := ⟨40⟩

/-- The word of a CALL to address 0 whose condition field is 7: cop 7, I = 0,
X = 0, regcond 7. -/
def instr_call_cond7 : Instruction := ⟨1799⟩

/-- The word of `BRANCH NC, @fffff`: cop 6, I = 0, X = 0, regcond 0, address
0xFFFFF. -/
def instr_branch_nc_atfffff : Instruction := ⟨4294963206⟩

/-- The image of a program of `textsize` instruction words 0 (`ILLOP`) and
`datasize` data words 0: the header `textsize`, `datasize`, `dataend = 0`,
then the text words, then the data words. -/
def image_of_zeros (textsize datasize : Nat) : List Nat :=
  textsize :: datasize :: 0 :: (List.replicate textsize 0 ++ List.replicate datasize 0)

/-! ## Basic facts -/

theorem cop_names_lookup (c : Nat) : cop_names[c]? = none ↔ 12 ≤ c := by
  rw [List.getElem?_eq_none_iff]; rfl

theorem condition_names_lookup (r : Nat) : condition_names[r]? = none ↔ 7 ≤ r := by
  rw [List.getElem?_eq_none_iff]; rfl

theorem print_condition_none_iff (i : Instruction) :
    print_condition i = none ↔ 7 ≤ i.regcond := by
  unfold print_condition
  cases h : condition_names[i.regcond]? with
  | none => simpa using (condition_names_lookup i.regcond).mp h
  | some n =>
    have : ¬ 7 ≤ i.regcond := fun h7 => by
      rw [(condition_names_lookup i.regcond).mpr h7] at h; simp at h
    simpa using this

theorem print_instruction_none_iff (i : Instruction) (a : Nat) :
    print_instruction i a = none ↔
      (12 ≤ i.cop ∨ ((i.cop = BRANCH ∨ i.cop = CALL) ∧ 7 ≤ i.regcond)) := by
  unfold print_instruction
  cases h : cop_names[i.cop]? with
  | none =>
    have := (cop_names_lookup i.cop).mp h
    simp [this]
  | some n =>
    have h12 : ¬ 12 ≤ i.cop := fun h7 => by
      rw [(cop_names_lookup i.cop).mpr h7] at h; simp at h
    have hpc := print_condition_none_iff i
    simp only [h12, false_or]
    by_cases hb : i.cop = BRANCH ∨ i.cop = CALL
    · have n1 : ¬ (i.cop = ILLOP ∨ i.cop = NOP ∨ i.cop = RET ∨ i.cop = HALT) := by
        simp only [ILLOP, NOP, RET, HALT, BRANCH, CALL] at *; omega
      have n2 : ¬ (i.cop = LOAD ∨ i.cop = STORE ∨ i.cop = ADD ∨ i.cop = SUB) := by
        simp only [LOAD, STORE, ADD, SUB, BRANCH, CALL] at *; omega
      rw [if_neg n1, if_neg n2, if_pos hb]
      cases hp : print_condition i with
      | none => simpa [hb] using hpc.mp hp
      | some c =>
        have : ¬ 7 ≤ i.regcond := fun h7 => by rw [hpc.mpr h7] at hp; simp at hp
        simp [hb, this]
    · simp only [hb, false_and, iff_false]
      split_ifs <;> first | contradiction | simp

theorem trace_none_iff (msg : String) (m : Machine) (i : Instruction) (a : Nat) :
    trace msg m i a = none ↔ print_instruction i a = none := by
  unfold trace
  cases print_instruction i a <;> simp

theorem fetch_of_get (s : Machine) (i : Instruction) (h : s.text[s.pc]? = some i) :
    fetch s = i := by
  unfold fetch
  rw [List.getD_eq_getElem?_getD, h]; rfl

theorem text_get_of_lt (s : Machine) (h : s.pc < s.text.length) :
    s.text[s.pc]? = some (fetch s) := by
  unfold fetch
  rw [List.getD_eq_getElem?_getD, List.getElem?_eq_getElem h]; rfl

theorem fetch_of_ge (s : Machine) (h : s.text.length ≤ s.pc) : fetch s = ⟨0⟩ := by
  unfold fetch
  rw [List.getD_eq_getElem?_getD, List.getElem?_eq_none_iff.mpr h]; rfl

theorem fetch_cop_lt (s : Machine) (h : (fetch s).cop ≠ 0) : s.pc < s.text.length := by
  by_contra hge
  rw [fetch_of_ge s (by omega)] at h
  exact h rfl

theorem step_undefined_of_ge (s : Machine) (h : s.text.length ≤ s.pc) :
    step s = (Outcome.Undefined, s) := by
  unfold step
  rw [List.getElem?_eq_none_iff.mpr h]

theorem step_undefined_of_print (s : Machine)
    (h : print_instruction (fetch s) s.pc = none) : step s = (Outcome.Undefined, s) := by
  by_cases hin : s.pc < s.text.length
  · unfold step
    rw [text_get_of_lt s hin]
    simp only
    rw [(trace_none_iff _ _ _ _).mpr h]
  · exact step_undefined_of_ge s (by omega)

theorem step_exec (s : Machine) (hpc : s.pc < s.textsize) (hin : s.pc < s.text.length)
    (hpr : print_instruction (fetch s) s.pc ≠ none) :
    step s = decode_execute { s with pc := wadd s.pc 1 } (fetch s) := by
  unfold step
  rw [text_get_of_lt s hin]
  simp only
  cases ht : trace "Executing" s (fetch s) s.pc with
  | none => exact absurd ((trace_none_iff _ _ _ _).mp ht) hpr
  | some t =>
    simp only
    rw [if_neg (by omega)]

theorem step_segtext (s : Machine) (hpc : s.textsize ≤ s.pc) (hin : s.pc < s.text.length)
    (hpr : print_instruction (fetch s) s.pc ≠ none) :
    step s = (Outcome.Fault Error.ERR_SEGTEXT (wsub s.pc 1), s) := by
  unfold step
  rw [text_get_of_lt s hin]
  simp only
  cases ht : trace "Executing" s (fetch s) s.pc with
  | none => exact absurd ((trace_none_iff _ _ _ _).mp ht) hpr
  | some t =>
    simp only
    rw [if_pos hpc]

theorem step_cases (s : Machine) :
    step s = (Outcome.Undefined, s) ∨
    step s = (Outcome.Fault Error.ERR_SEGTEXT (wsub s.pc 1), s) ∨
    (s.pc < s.textsize ∧ s.pc < s.text.length ∧
      print_instruction (fetch s) s.pc ≠ none ∧
      step s = decode_execute { s with pc := wadd s.pc 1 } (fetch s)) := by
  by_cases hin : s.pc < s.text.length
  · by_cases hpr : print_instruction (fetch s) s.pc = none
    · exact Or.inl (step_undefined_of_print s hpr)
    · by_cases hpc : s.pc < s.textsize
      · exact Or.inr (Or.inr ⟨hpc, hin, hpr, step_exec s hpc hin hpr⟩)
      · exact Or.inr (Or.inl (step_segtext s (by omega) hin hpr))
  · exact Or.inl (step_undefined_of_ge s (by omega))

theorem print_plain (i : Instruction) (a : Nat)
    (hc : i.cop = NOP ∨ i.cop = LOAD ∨ i.cop = STORE ∨ i.cop = ADD ∨ i.cop = SUB ∨
      i.cop = RET ∨ i.cop = PUSH ∨ i.cop = POP ∨ i.cop = HALT) :
    i.cop ≠ 0 ∧ print_instruction i a ≠ none := by
  have h0 : i.cop ≠ 0 := by
    simp only [NOP, LOAD, STORE, ADD, SUB, RET, PUSH, POP, HALT] at hc; omega
  refine ⟨h0, fun h => ?_⟩
  have := (print_instruction_none_iff i a).mp h
  simp only [NOP, LOAD, STORE, ADD, SUB, RET, PUSH, POP, HALT, BRANCH, CALL] at hc this
  omega

theorem print_cond (i : Instruction) (a : Nat) (hc : i.cop = BRANCH ∨ i.cop = CALL)
    (hr : i.regcond ≤ 6) : i.cop ≠ 0 ∧ print_instruction i a ≠ none := by
  have h0 : i.cop ≠ 0 := by
    simp only [BRANCH, CALL] at hc; omega
  refine ⟨h0, fun h => ?_⟩
  have := (print_instruction_none_iff i a).mp h
  simp only [BRANCH, CALL] at hc this
  omega

/-- A turn at a `pc` below `textsize` on an instruction without a condition
field among the eleven opcodes executes that instruction. -/
theorem step_of_plain (s : Machine) (hpc : s.pc < s.textsize)
    (hc : (fetch s).cop = NOP ∨ (fetch s).cop = LOAD ∨ (fetch s).cop = STORE ∨
      (fetch s).cop = ADD ∨ (fetch s).cop = SUB ∨ (fetch s).cop = RET ∨
      (fetch s).cop = PUSH ∨ (fetch s).cop = POP ∨ (fetch s).cop = HALT) :
    step s = decode_execute { s with pc := wadd s.pc 1 } (fetch s) :=
  step_exec s hpc (fetch_cop_lt s (print_plain _ s.pc hc).1) (print_plain _ s.pc hc).2

/-- A turn at a `pc` below `textsize` on a `BRANCH` or `CALL` whose condition
is one of the seven named ones executes that instruction. -/
theorem step_of_cond (s : Machine) (hpc : s.pc < s.textsize)
    (hc : (fetch s).cop = BRANCH ∨ (fetch s).cop = CALL) (hr : (fetch s).regcond ≤ 6) :
    step s = decode_execute { s with pc := wadd s.pc 1 } (fetch s) :=
  step_exec s hpc (fetch_cop_lt s (print_cond _ s.pc hc hr).1) (print_cond _ s.pc hc hr).2

theorem wsub_wadd_one (p : Nat) (hp : p + 1 < 4294967296) : wsub (wadd p 1) 1 = p := by
  unfold wsub wadd; omega

theorem instr_addr (s : Machine) (h : s.WF) (hpc : s.pc < s.textsize) :
    wsub (wadd s.pc 1) 1 = s.pc := by
  obtain ⟨_, _, _, hts, _⟩ := h
  exact wsub_wadd_one _ (by omega)

theorem pc_succ (s : Machine) (h : s.WF) (hpc : s.pc < s.textsize) :
    wadd s.pc 1 = s.pc + 1 := by
  obtain ⟨_, _, _, hts, _⟩ := h
  unfold wadd; omega

@[simp] theorem refresh_cc_pc (m : Machine) (r : Nat) : (refresh_cc m r).pc = m.pc := by
  unfold refresh_cc; split <;> [rfl; (split <;> rfl)]

@[simp] theorem setReg_pc (m : Machine) (r v : Nat) : (setReg m r v).pc = m.pc := rfl

@[simp] theorem setSp_pc (m : Machine) (v : Nat) : (setSp m v).pc = m.pc := rfl

@[simp] theorem writeData_pc (m : Machine) (a v : Nat) : (writeData m a v).pc = m.pc := rfl

theorem load_pc (m : Machine) (i : Instruction) (a : Nat) : (load m i a).2.pc = m.pc := by
  unfold load; dsimp only; repeat' split
  all_goals simp

theorem store_pc (m : Machine) (i : Instruction) (a : Nat) : (store m i a).2.pc = m.pc := by
  unfold store; dsimp only; repeat' split
  all_goals simp

theorem add_pc (m : Machine) (i : Instruction) (a : Nat) : (add m i a).2.pc = m.pc := by
  unfold add; dsimp only; repeat' split
  all_goals simp

theorem sub_pc (m : Machine) (i : Instruction) (a : Nat) : (sub m i a).2.pc = m.pc := by
  unfold sub; dsimp only; repeat' split
  all_goals simp

theorem push_pc (m : Machine) (i : Instruction) (a : Nat) : (push m i a).2.pc = m.pc := by
  unfold push; dsimp only; repeat' split
  all_goals simp

theorem pop_pc (m : Machine) (i : Instruction) (a : Nat) : (pop m i a).2.pc = m.pc := by
  unfold pop; dsimp only; repeat' split
  all_goals simp

theorem reg_setReg_same (m : Machine) (r v : Nat) (h : r < m.registers.length) :
    reg (setReg m r v) r = v := by
  simp [reg, setReg, List.getD_eq_getElem?_getD, List.getElem?_set, h]

theorem reg_setReg_ne (m : Machine) (r r2 v : Nat) (h : r ≠ r2) :
    reg (setReg m r v) r2 = reg m r2 := by
  simp [reg, setReg, List.getD_eq_getElem?_getD, List.getElem?_set, h]

theorem readData_writeData_same (m : Machine) (a v : Nat) (h : a < m.data.length) :
    readData (writeData m a v) a = v := by
  simp [readData, writeData, List.getD_eq_getElem?_getD, List.getElem?_set, h]

theorem readData_writeData_ne (m : Machine) (a a2 v : Nat) (h : a ≠ a2) :
    readData (writeData m a v) a2 = readData m a2 := by
  simp [readData, writeData, List.getD_eq_getElem?_getD, List.getElem?_set, h]

theorem wsub_one (a : Nat) : wsub a 1 = (a + 4294967295) % 4294967296 := by
  unfold wsub; norm_num

theorem sp_load_program (textsize : Nat) (text : List Instruction) (datasize : Nat)
    (data : List Nat) (dataend : Nat) :
    reg (load_program textsize text datasize data dataend) 15 =
      (datasize + 4294967295) % 4294967296 := by
  unfold load_program setSp
  exact (reg_setReg_same _ 15 _ (by simp)).trans (wsub_one _)

theorem allowed_condition_congr (m1 m2 : Machine) (i : Instruction) (a1 a2 : Nat)
    (hcc : m1.cc = m2.cc) (h : allowed_condition m2 i a2 = .ok true) :
    allowed_condition m1 i a1 = .ok true := by
  unfold allowed_condition at h ⊢
  rw [hcc]
  split_ifs at h ⊢ <;> exact h

theorem get_address_congr (m1 m2 : Machine) (i : Instruction)
    (h : m1.registers = m2.registers) : get_address m1 i = get_address m2 i := by
  simp [get_address, reg, h]

theorem get_address_setSp (m : Machine) (v : Nat) (i : Instruction)
    (h : i.indexed = false ∨ i.rindex ≠ 15) :
    get_address (setSp m v) i = get_address m i := by
  unfold get_address
  rcases h with h | h
  · simp [h]
  · rw [show reg (setSp m v) i.rindex = reg m i.rindex from
      reg_setReg_ne m 15 i.rindex v (fun e => h e.symm)]

theorem wadd_wsub_one (p : Nat) (hp : p < 4294967296) : wadd (wsub p 1) 1 = p := by
  unfold wsub wadd; omega

theorem check_stack_some (m : Machine) (a : Nat) (f : Outcome) (h : check_stack m a = some f) :
    f ≠ Outcome.Continue := by
  unfold check_stack at h; split at h <;> simp at h; subst h; simp

theorem check_stack_none (m : Machine) (a : Nat) (h : check_stack m a = none) :
    m.dataend ≤ sp m ∧ sp m < m.datasize := by
  unfold check_stack at h; split at h <;> simp at h; omega

theorem check_immediate_some (i : Instruction) (a : Nat) (f : Outcome)
    (h : check_immediate i a = some f) : f ≠ Outcome.Continue := by
  unfold check_immediate at h; split at h <;> simp at h; subst h; simp

theorem check_data_addr_some (m : Machine) (d a : Nat) (f : Outcome)
    (h : check_data_addr m d a = some f) : f ≠ Outcome.Continue := by
  unfold check_data_addr at h; split at h <;> simp at h; subst h; simp

theorem sp_setSp (m : Machine) (v : Nat) (h : m.registers.length = 16) : sp (setSp m v) = v :=
  reg_setReg_same m 15 v (by omega)

theorem stackInv_of_checked (m : Machine) (hds : m.datasize < 4294967296)
    (h : m.dataend ≤ sp m ∧ sp m < m.datasize) : StackInv m := by
  unfold StackInv; omega

theorem sp_writeData (m : Machine) (a v : Nat) : sp (writeData m a v) = sp m := rfl

theorem stackInv_dec (m m2 : Machine) (hds : m.datasize < 4294967296)
    (hrl : m2.registers.length = 16)
    (hde : (setSp m2 (wsub (sp m) 1)).dataend = m.dataend)
    (hdz : (setSp m2 (wsub (sp m) 1)).datasize = m.datasize)
    (h1 : m.dataend ≤ sp m) (h2 : sp m < m.datasize) :
    StackInv (setSp m2 (wsub (sp m) 1)) := by
  unfold StackInv
  rw [sp_setSp _ _ hrl, hde, hdz]
  unfold wsub; omega

theorem push_stackInv (m : Machine) (i : Instruction) (a : Nat)
    (hrl : m.registers.length = 16) (hds : m.datasize < 4294967296)
    (hc : (push m i a).1 = Outcome.Continue) : StackInv (push m i a).2 := by
  unfold push check_stack check_data_addr at hc ⊢
  simp only [sp_writeData] at hc ⊢
  split_ifs at hc ⊢ with h1 h2 h3 <;> simp at hc ⊢
  · exact stackInv_dec m _ hds hrl rfl rfl (by omega) (by omega)
  · exact stackInv_dec m _ hds hrl rfl rfl (by omega) (by omega)

theorem keeps_refl (m : Machine) : Keeps m m := ⟨rfl, rfl, rfl, rfl, rfl, rfl⟩

theorem keeps_refresh_cc (m : Machine) (r : Nat) : Keeps m (refresh_cc m r) := by
  unfold refresh_cc; split_ifs <;> exact keeps_refl m

theorem keeps_setReg (m : Machine) (r v : Nat) : Keeps m (setReg m r v) := by
  simp [Keeps, setReg]

theorem keeps_writeData (m : Machine) (a v : Nat) : Keeps m (writeData m a v) := by
  simp [Keeps, writeData]

theorem keeps_pc (m : Machine) (p : Nat) : Keeps m { m with pc := p } := keeps_refl m

theorem keeps_trans {m1 m2 m3 : Machine} (h1 : Keeps m1 m2) (h2 : Keeps m2 m3) : Keeps m1 m3 := by
  unfold Keeps at *
  obtain ⟨a1, a2, a3, a4, a5, a6⟩ := h1
  obtain ⟨b1, b2, b3, b4, b5, b6⟩ := h2
  exact ⟨b1.trans a1, b2.trans a2, b3.trans a3, b4.trans a4, b5.trans a5, b6.trans a6⟩

theorem keeps_load (m : Machine) (i : Instruction) (a : Nat) : Keeps m (load m i a).2 := by
  unfold load; dsimp only; repeat' split
  all_goals first
    | exact keeps_refl m
    | exact keeps_trans (keeps_setReg _ _ _) (keeps_refresh_cc _ _)

theorem keeps_add (m : Machine) (i : Instruction) (a : Nat) : Keeps m (add m i a).2 := by
  unfold add; dsimp only; repeat' split
  all_goals first
    | exact keeps_refl m
    | exact keeps_trans (keeps_setReg _ _ _) (keeps_refresh_cc _ _)

theorem keeps_sub (m : Machine) (i : Instruction) (a : Nat) : Keeps m (sub m i a).2 := by
  unfold sub; dsimp only; repeat' split
  all_goals first
    | exact keeps_refl m
    | exact keeps_trans (keeps_setReg _ _ _) (keeps_refresh_cc _ _)

theorem keeps_store (m : Machine) (i : Instruction) (a : Nat) : Keeps m (store m i a).2 := by
  unfold store; dsimp only; repeat' split
  all_goals first
    | exact keeps_refl m
    | exact keeps_writeData _ _ _

theorem keeps_branch (m : Machine) (i : Instruction) (a : Nat) : Keeps m (branch m i a).2 := by
  unfold branch; dsimp only; repeat' split
  all_goals exact keeps_refl m

theorem keeps_call (m : Machine) (i : Instruction) (a : Nat) : Keeps m (call m i a).2 := by
  unfold call; dsimp only; repeat' split
  all_goals first
    | exact keeps_refl m
    | exact keeps_trans (keeps_trans (keeps_writeData m _ _) (keeps_setReg _ _ _)) (keeps_pc _ _)

theorem keeps_ret (m : Machine) (i : Instruction) (a : Nat) : Keeps m (ret m i a).2 := by
  unfold ret; dsimp only; repeat' split
  all_goals exact keeps_setReg m _ _

theorem keeps_push (m : Machine) (i : Instruction) (a : Nat) : Keeps m (push m i a).2 := by
  unfold push; dsimp only; repeat' split
  all_goals first
    | exact keeps_refl m
    | exact keeps_trans (keeps_writeData m _ _) (keeps_setReg _ _ _)

theorem keeps_pop (m : Machine) (i : Instruction) (a : Nat) : Keeps m (pop m i a).2 := by
  unfold pop; dsimp only; repeat' split
  all_goals first
    | exact keeps_refl m
    | exact keeps_setReg m _ _
    | exact keeps_trans (keeps_setReg m _ _) (keeps_writeData _ _ _)

theorem decode_execute_cases (P : Outcome × Machine → Prop) (m : Machine) (i : Instruction)
    (h_load : i.cop = LOAD → P (load m i (wsub m.pc 1)))
    (h_store : i.cop = STORE → P (store m i (wsub m.pc 1)))
    (h_add : i.cop = ADD → P (add m i (wsub m.pc 1)))
    (h_sub : i.cop = SUB → P (sub m i (wsub m.pc 1)))
    (h_branch : i.cop = BRANCH → P (branch m i (wsub m.pc 1)))
    (h_call : i.cop = CALL → P (call m i (wsub m.pc 1)))
    (h_ret : i.cop = RET → P (ret m i (wsub m.pc 1)))
    (h_push : i.cop = PUSH → P (push m i (wsub m.pc 1)))
    (h_pop : i.cop = POP → P (pop m i (wsub m.pc 1)))
    (h_halt : i.cop = HALT → P (Outcome.Halted, m))
    (h_nop : i.cop = NOP → P (Outcome.Continue, m))
    (h_illop : i.cop = ILLOP → P (Outcome.Fault Error.ERR_ILLEGAL (wsub m.pc 1), m))
    (h_unknown : 12 ≤ i.cop → P (Outcome.Fault Error.ERR_UNKNOWN (wsub m.pc 1), m)) :
    P (decode_execute m i) := by
  unfold decode_execute; dsimp only
  by_cases c1 : i.cop = LOAD
  · rw [if_pos c1]; exact h_load c1
  rw [if_neg c1]
  by_cases c2 : i.cop = STORE
  · rw [if_pos c2]; exact h_store c2
  rw [if_neg c2]
  by_cases c3 : i.cop = ADD
  · rw [if_pos c3]; exact h_add c3
  rw [if_neg c3]
  by_cases c4 : i.cop = SUB
  · rw [if_pos c4]; exact h_sub c4
  rw [if_neg c4]
  by_cases c5 : i.cop = BRANCH
  · rw [if_pos c5]; exact h_branch c5
  rw [if_neg c5]
  by_cases c6 : i.cop = CALL
  · rw [if_pos c6]; exact h_call c6
  rw [if_neg c6]
  by_cases c7 : i.cop = RET
  · rw [if_pos c7]; exact h_ret c7
  rw [if_neg c7]
  by_cases c8 : i.cop = PUSH
  · rw [if_pos c8]; exact h_push c8
  rw [if_neg c8]
  by_cases c9 : i.cop = POP
  · rw [if_pos c9]; exact h_pop c9
  rw [if_neg c9]
  by_cases c10 : i.cop = HALT
  · rw [if_pos c10]; exact h_halt c10
  rw [if_neg c10]
  by_cases c11 : i.cop = NOP
  · rw [if_pos c11]; exact h_nop c11
  rw [if_neg c11]
  by_cases c12 : i.cop = ILLOP
  · rw [if_pos c12]; exact h_illop c12
  rw [if_neg c12]
  apply h_unknown
  simp only [LOAD, STORE, ADD, SUB, BRANCH, CALL, RET, PUSH, POP, HALT, NOP, ILLOP] at *
  omega

theorem keeps_decode_execute (m : Machine) (i : Instruction) :
    Keeps m (decode_execute m i).2 := by
  apply decode_execute_cases (fun r => Keeps m r.2) <;> intro _
  · exact keeps_load _ _ _
  · exact keeps_store _ _ _
  · exact keeps_add _ _ _
  · exact keeps_sub _ _ _
  · exact keeps_branch _ _ _
  · exact keeps_call _ _ _
  · exact keeps_ret _ _ _
  · exact keeps_push _ _ _
  · exact keeps_pop _ _ _
  · exact keeps_refl m
  · exact keeps_refl m
  · exact keeps_refl m
  · exact keeps_refl m

theorem keeps_step (m : Machine) : Keeps m (step m).2 := by
  rcases step_cases m with h | h | ⟨_, _, _, h⟩
  · rw [h]; exact keeps_refl m
  · rw [h]; exact keeps_refl m
  · rw [h]; exact keeps_trans (keeps_pc m _) (keeps_decode_execute _ _)

theorem sp_refresh_cc (m : Machine) (r : Nat) : sp (refresh_cc m r) = sp m := by
  unfold refresh_cc; split_ifs <;> rfl

theorem sp_setReg_ne (m : Machine) (r v : Nat) (h : r ≠ 15) : sp (setReg m r v) = sp m :=
  reg_setReg_ne m r 15 v h

theorem load_sp (m : Machine) (i : Instruction) (a : Nat) (h : i.regcond ≠ 15) :
    sp (load m i a).2 = sp m := by
  unfold load; dsimp only; repeat' split
  all_goals first
    | rfl
    | exact (sp_refresh_cc _ _).trans (sp_setReg_ne _ _ _ h)

theorem add_sp (m : Machine) (i : Instruction) (a : Nat) (h : i.regcond ≠ 15) :
    sp (add m i a).2 = sp m := by
  unfold add; dsimp only; repeat' split
  all_goals first
    | rfl
    | exact (sp_refresh_cc _ _).trans (sp_setReg_ne _ _ _ h)

theorem sub_sp (m : Machine) (i : Instruction) (a : Nat) (h : i.regcond ≠ 15) :
    sp (sub m i a).2 = sp m := by
  unfold sub; dsimp only; repeat' split
  all_goals first
    | rfl
    | exact (sp_refresh_cc _ _).trans (sp_setReg_ne _ _ _ h)

theorem store_sp (m : Machine) (i : Instruction) (a : Nat) : sp (store m i a).2 = sp m := by
  unfold store; dsimp only; repeat' split
  all_goals rfl

theorem branch_sp (m : Machine) (i : Instruction) (a : Nat) : sp (branch m i a).2 = sp m := by
  unfold branch; dsimp only; repeat' split
  all_goals rfl

theorem stackInv_congr (m m2 : Machine) (hk : Keeps m m2) (hsp : sp m2 = sp m)
    (h : StackInv m) : StackInv m2 := by
  obtain ⟨_, _, k3, k4, _, _⟩ := hk
  unfold StackInv at *
  rw [hsp, k3, k4]; exact h

theorem call_stackInv (m : Machine) (i : Instruction) (a : Nat)
    (hrl : m.registers.length = 16) (hds : m.datasize < 4294967296)
    (hc : (call m i a).1 = Outcome.Continue) : StackInv (call m i a).2 := by
  unfold call at hc ⊢
  dsimp only at hc ⊢
  cases h1 : check_immediate i a with
  | some f => rw [h1] at hc; exact absurd hc (check_immediate_some _ _ _ h1)
  | none =>
    cases h2 : check_stack m a with
    | some f => rw [h1, h2] at hc; exact absurd hc (check_stack_some _ _ _ h2)
    | none =>
      have hb := check_stack_none _ _ h2
      cases h3 : allowed_condition m i a with
      | error f =>
        rw [h1, h2, h3] at hc
        unfold allowed_condition at h3
        split_ifs at h3
        simp at h3; subst h3; simp at hc
      | ok b =>
        cases b with
        | false => simp only [h1, h2, h3]; exact stackInv_of_checked m hds hb
        | true =>
          simp only [h1, h2, h3]
          exact stackInv_dec m (writeData m (sp m) m.pc) hds hrl rfl rfl hb.1 hb.2

theorem ret_stackInv (m : Machine) (i : Instruction) (a : Nat)
    (hds : m.datasize < 4294967296)
    (hc : (ret m i a).1 = Outcome.Continue) : StackInv (ret m i a).2 := by
  unfold ret at hc ⊢
  dsimp only at hc ⊢
  cases h2 : check_stack (setSp m (wadd (sp m) 1)) a with
  | some f => rw [h2] at hc; exact absurd hc (check_stack_some _ _ _ h2)
  | none =>
    have hb := check_stack_none _ _ h2
    simp only [h2]
    exact stackInv_of_checked (setSp m (wadd (sp m) 1)) hds hb

theorem pop_stackInv (m : Machine) (i : Instruction) (a : Nat)
    (hds : m.datasize < 4294967296)
    (hc : (pop m i a).1 = Outcome.Continue) : StackInv (pop m i a).2 := by
  unfold pop at hc ⊢
  dsimp only at hc ⊢
  cases h1 : check_immediate i a with
  | some f => rw [h1] at hc; exact absurd hc (check_immediate_some _ _ _ h1)
  | none =>
    cases h2 : check_data_addr m (get_address m i) a with
    | some f => rw [h1, h2] at hc; exact absurd hc (check_data_addr_some _ _ _ _ h2)
    | none =>
      cases h3 : check_stack (setSp m (wadd (sp m) 1)) a with
      | some f => rw [h1, h2, h3] at hc; exact absurd hc (check_stack_some _ _ _ h3)
      | none =>
        have hb := check_stack_none _ _ h3
        simp only [h1, h2, h3]
        exact stackInv_of_checked (setSp m (wadd (sp m) 1)) hds hb

theorem writes_sp_false (i : Instruction) (h : writes_sp i = false)
    (hop : i.cop = LOAD ∨ i.cop = ADD ∨ i.cop = SUB) : i.regcond ≠ 15 := by
  intro h15
  unfold writes_sp at h
  rcases hop with hc | hc | hc <;> simp [hc, h15] at h

theorem decode_execute_stackInv (m : Machine) (i : Instruction)
    (hrl : m.registers.length = 16) (hds : m.datasize < 4294967296)
    (hw : writes_sp i = false) (hJ : StackInv m)
    (hc : (decode_execute m i).1 = Outcome.Continue) : StackInv (decode_execute m i).2 := by
  revert hc
  apply decode_execute_cases (fun r => r.1 = Outcome.Continue → StackInv r.2) <;> intro hop hc
  · exact stackInv_congr m _ (keeps_load _ _ _)
      (load_sp _ _ _ (writes_sp_false i hw (Or.inl hop))) hJ
  · exact stackInv_congr m _ (keeps_store _ _ _) (store_sp _ _ _) hJ
  · exact stackInv_congr m _ (keeps_add _ _ _)
      (add_sp _ _ _ (writes_sp_false i hw (Or.inr (Or.inl hop)))) hJ
  · exact stackInv_congr m _ (keeps_sub _ _ _)
      (sub_sp _ _ _ (writes_sp_false i hw (Or.inr (Or.inr hop)))) hJ
  · exact stackInv_congr m _ (keeps_branch _ _ _) (branch_sp _ _ _) hJ
  · exact call_stackInv m i _ hrl hds hc
  · exact ret_stackInv m i _ hds hc
  · exact push_stackInv m i _ hrl hds hc
  · exact pop_stackInv m i _ hds hc
  · exact hJ
  · exact hJ
  · exact hJ
  · exact hJ

theorem step_stackInv (m : Machine)
    (hrl : m.registers.length = 16) (hds : m.datasize < 4294967296)
    (hw : writes_sp (fetch m) = false) (hJ : StackInv m)
    (hc : (step m).1 = Outcome.Continue) : StackInv (step m).2 := by
  rcases step_cases m with h | h | ⟨_, _, _, h⟩
  · rw [h] at hc; simp at hc
  · rw [h] at hc; simp at hc
  · rw [h] at hc ⊢
    exact decode_execute_stackInv { m with pc := wadd m.pc 1 } (fetch m) hrl hds hw hJ hc

theorem reach_head (ok : Instruction → Prop) (s0 s1 s : Machine) (hok : ok (fetch s0))
    (hstep : step s0 = (Outcome.Continue, s1)) (h : ContinueReach ok s1 s) :
    ContinueReach ok s0 s := by
  induction h with
  | refl => exact ContinueReach.tail ContinueReach.refl hok hstep
  | tail _ hok2 hstep2 ih => exact ContinueReach.tail ih hok2 hstep2

theorem simul_reach (n : Nat) (s0 s : Machine) (h : simul n s0 = (Outcome.Continue, s)) :
    ContinueReach (fun _ => True) s0 s := by
  induction n generalizing s0 with
  | zero =>
    simp only [simul, Prod.mk.injEq, true_and] at h
    subst h; exact ContinueReach.refl
  | succ n ih =>
    unfold simul at h
    cases hst : step s0 with
    | mk o s1 =>
      rw [hst] at h
      cases o with
      | Continue => exact reach_head _ s0 s1 s trivial hst (ih s1 h)
      | Halted => simp at h
      | Fault e a => simp at h
      | Undefined => simp at h

theorem map_getD_range {α : Type} (l : List α) (d : α) :
    (List.range l.length).map (fun i => l.getD i d) = l := by
  apply List.ext_getElem
  · simp
  · intro n h1 h2
    simp [List.getD_eq_getElem?_getD, h2]

theorem pack_fields (cop regcond payload : Nat) (i x : Bool) (hcop : cop < 64)
    (hrc : regcond < 16) (hp : payload < 1048576) :
    (pack cop i x regcond payload).raw < 4294967296 ∧
    (pack cop i x regcond payload).cop = cop ∧
    (pack cop i x regcond payload).immediate = i ∧
    (pack cop i x regcond payload).indexed = x ∧
    (pack cop i x regcond payload).regcond = regcond ∧
    (pack cop i x regcond payload).raw / 4096 % 1048576 = payload := by
  unfold Instruction.cop Instruction.immediate Instruction.indexed Instruction.regcond pack
  cases i <;> cases x <;> simp <;> omega

theorem simul_continue_le (n : Nat) : ∀ (k : Nat) (s : Machine), k ≤ n →
    (simul n s).1 = Outcome.Continue → (simul k s).1 = Outcome.Continue := by
  induction n with
  | zero =>
    intro k s hk _
    have : k = 0 := by omega
    subst this; rfl
  | succ n ih =>
    intro k s hk h
    cases k with
    | zero => rfl
    | succ k =>
      unfold simul at h ⊢
      cases hst : step s with
      | mk o s1 =>
        rw [hst] at h
        cases o with
        | Continue => exact ih k s1 (by omega) h
        | Halted => simp at h
        | Fault e a => simp at h
        | Undefined => simp at h

theorem self_call_step (s : Machine) (h : AtSelfCall s)
    (hin : s.dataend ≤ sp s ∧ sp s < s.datasize) :
    step s = (Outcome.Continue,
      { setSp (writeData { s with pc := 1 } (sp s) 1) (wsub (sp s) 1) with pc := 0 }) := by
  obtain ⟨h0, hts, hcop, hI, hX, hrc, hadr, hrl, hds⟩ := h
  have hpc : s.pc < s.textsize := by omega
  rw [step_of_cond s hpc (Or.inr hcop) (by rw [hrc]; decide)]
  have e1 : wadd s.pc 1 = 1 := by rw [h0]; rfl
  rw [e1]
  have hst : check_stack { s with pc := 1 } (wsub 1 1) = none := by
    have e : sp { s with pc := 1 } = sp s := rfl
    simp [check_stack, e]; omega
  have hc : allowed_condition { s with pc := 1 } (fetch s) (wsub 1 1) = .ok true := by
    simp [allowed_condition, hrc]
  have hg : ∀ m : Machine, get_address m (fetch s) = 0 := by
    intro m; simp [get_address, hX, hadr]
  have e2 : sp (writeData { s with pc := 1 } (sp s) 1) = sp s := rfl
  have e3 : sp { s with pc := 1 } = sp s := rfl
  have e4 : ({ s with pc := 1 } : Machine).pc = 1 := rfl
  simp only [decode_execute, hcop, call, check_immediate, hI, hst, hc, e2, e3, e4, hg]
  simp

theorem self_call_fault (s : Machine) (h : AtSelfCall s)
    (hout : ¬ (s.dataend ≤ sp s ∧ sp s < s.datasize)) :
    (step s).1 = Outcome.Fault Error.ERR_SEGSTACK 0 := by
  obtain ⟨h0, hts, hcop, hI, hX, hrc, hadr, hrl, hds⟩ := h
  have hpc : s.pc < s.textsize := by omega
  rw [step_of_cond s hpc (Or.inr hcop) (by rw [hrc]; decide)]
  have e1 : wadd s.pc 1 = 1 := by rw [h0]; rfl
  rw [e1]
  have e0 : wsub 1 1 = 0 := by decide
  have hst : check_stack { s with pc := 1 } (wsub 1 1) =
      some (Outcome.Fault Error.ERR_SEGSTACK 0) := by
    have e : sp { s with pc := 1 } = sp s := rfl
    simp only [check_stack, e, e0]
    rw [if_pos (by show s.dataend > sp s ∨ sp s ≥ s.datasize; omega)]
  simp only [decode_execute, hcop, call, check_immediate, hI, hst]
  simp

theorem self_call_loop (j : Nat) : ∀ s : Machine, AtSelfCall s → sp s < 4294967296 →
    (sp s + 1) % 4294967296 = s.dataend + j → s.dataend + j ≤ s.datasize →
    (simul j s).1 = Outcome.Continue ∧
    (step (simul j s).2).1 = Outcome.Fault Error.ERR_SEGSTACK 0 := by
  induction j with
  | zero =>
    intro s h hsp hj hle
    refine ⟨rfl, ?_⟩
    show (step s).1 = _
    apply self_call_fault s h
    have hds := h.2.2.2.2.2.2.2.2
    omega
  | succ j ih =>
    intro s h hsp hj hle
    have hds := h.2.2.2.2.2.2.2.2
    have hin : s.dataend ≤ sp s ∧ sp s < s.datasize := by omega
    have hstep := self_call_step s h hin
    generalize hs1 : ({ setSp (writeData { s with pc := 1 } (sp s) 1) (wsub (sp s) 1) with
      pc := 0 } : Machine) = s1 at hstep
    have f_sp : sp s1 = wsub (sp s) 1 := by
      rw [← hs1]
      exact reg_setReg_same (writeData { s with pc := 1 } (sp s) 1) 15 _
        (by show 15 < s.registers.length; have := h.2.2.2.2.2.2.2.1; omega)
    have f_at : AtSelfCall s1 := by
      obtain ⟨h0, hts, hcop, hI, hX, hrc, hadr, hrl, hds⟩ := h
      have ef : fetch s1 = fetch s := by
        rw [← hs1]; unfold fetch; rw [h0]; rfl
      have erl : s1.registers.length = s.registers.length := by
        rw [← hs1]; simp [setSp, setReg, writeData]
      refine ⟨by rw [← hs1], by rw [← hs1]; exact hts, ?_, ?_, ?_, ?_, ?_, ?_, ?_⟩
      · rw [ef]; exact hcop
      · rw [ef]; exact hI
      · rw [ef]; exact hX
      · rw [ef]; exact hrc
      · rw [ef]; exact hadr
      · rw [erl]; exact hrl
      · rw [← hs1]; exact hds
    have f_de : s1.dataend = s.dataend := by rw [← hs1]; rfl
    have f_ds : s1.datasize = s.datasize := by rw [← hs1]; rfl
    have hsp1 : sp s1 < 4294967296 := by rw [f_sp]; unfold wsub; omega
    have hj1 : (sp s1 + 1) % 4294967296 = s1.dataend + j := by
      rw [f_sp, f_de]; unfold wsub; omega
    have r := ih s1 f_at hsp1 hj1 (by rw [f_de, f_ds]; omega)
    have e : simul (j + 1) s = simul j s1 := by
      rw [simul, hstep]
    rw [e]; exact r

theorem check_stack_fault (m : Machine) (a : Nat) (f : Outcome) (h : check_stack m a = some f) :
    f = Outcome.Fault Error.ERR_SEGSTACK a := by
  unfold check_stack at h; split at h <;> simp at h; exact h.symm

theorem check_immediate_fault (i : Instruction) (a : Nat) (f : Outcome)
    (h : check_immediate i a = some f) : f = Outcome.Fault Error.ERR_IMMEDIATE a := by
  unfold check_immediate at h; split at h <;> simp at h; exact h.symm

theorem check_data_addr_fault (m : Machine) (d a : Nat) (f : Outcome)
    (h : check_data_addr m d a = some f) : f = Outcome.Fault Error.ERR_SEGDATA a := by
  unfold check_data_addr at h; split at h <;> simp at h; exact h.symm

theorem allowed_condition_fault (m : Machine) (i : Instruction) (a : Nat) (f : Outcome)
    (h : allowed_condition m i a = .error f) : f = Outcome.Fault Error.ERR_CONDITION a := by
  unfold allowed_condition at h
  split_ifs at h
  simp at h; exact h.symm

theorem load_not_halted (m : Machine) (i : Instruction) (a : Nat) :
    (load m i a).1 ≠ Outcome.Halted := by
  unfold load; dsimp only; repeat' split
  all_goals first
    | (rename_i f hf; rw [check_data_addr_fault _ _ _ _ hf]; simp)
    | simp

theorem add_not_halted (m : Machine) (i : Instruction) (a : Nat) :
    (add m i a).1 ≠ Outcome.Halted := by
  unfold add; dsimp only; repeat' split
  all_goals first
    | (rename_i f hf; rw [check_data_addr_fault _ _ _ _ hf]; simp)
    | simp

theorem sub_not_halted (m : Machine) (i : Instruction) (a : Nat) :
    (sub m i a).1 ≠ Outcome.Halted := by
  unfold sub; dsimp only; repeat' split
  all_goals first
    | (rename_i f hf; rw [check_data_addr_fault _ _ _ _ hf]; simp)
    | simp

theorem store_not_halted (m : Machine) (i : Instruction) (a : Nat) :
    (store m i a).1 ≠ Outcome.Halted := by
  unfold store; dsimp only; repeat' split
  all_goals first
    | (rename_i f hf; rw [check_data_addr_fault _ _ _ _ hf]; simp)
    | (rename_i f hf; rw [check_immediate_fault _ _ _ hf]; simp)
    | simp

theorem branch_not_halted (m : Machine) (i : Instruction) (a : Nat) :
    (branch m i a).1 ≠ Outcome.Halted := by
  unfold branch; dsimp only; repeat' split
  all_goals first
    | (rename_i f hf; rw [check_immediate_fault _ _ _ hf]; simp)
    | (rename_i f hf; rw [allowed_condition_fault _ _ _ _ hf]; simp)
    | simp

theorem call_not_halted (m : Machine) (i : Instruction) (a : Nat) :
    (call m i a).1 ≠ Outcome.Halted := by
  unfold call; dsimp only; repeat' split
  all_goals first
    | (rename_i f hf; rw [check_immediate_fault _ _ _ hf]; simp)
    | (rename_i f hf; rw [check_stack_fault _ _ _ hf]; simp)
    | (rename_i f hf; rw [allowed_condition_fault _ _ _ _ hf]; simp)
    | simp

theorem ret_not_halted (m : Machine) (i : Instruction) (a : Nat) :
    (ret m i a).1 ≠ Outcome.Halted := by
  unfold ret; dsimp only; repeat' split
  all_goals first
    | (rename_i f hf; rw [check_stack_fault _ _ _ hf]; simp)
    | simp

theorem push_not_halted (m : Machine) (i : Instruction) (a : Nat) :
    (push m i a).1 ≠ Outcome.Halted := by
  unfold push; dsimp only; repeat' split
  all_goals first
    | (rename_i f hf; rw [check_stack_fault _ _ _ hf]; simp)
    | (rename_i f hf; rw [check_data_addr_fault _ _ _ _ hf]; simp)
    | simp

theorem pop_not_halted (m : Machine) (i : Instruction) (a : Nat) :
    (pop m i a).1 ≠ Outcome.Halted := by
  unfold pop; dsimp only; repeat' split
  all_goals first
    | (rename_i f hf; rw [check_immediate_fault _ _ _ hf]; simp)
    | (rename_i f hf; rw [check_stack_fault _ _ _ hf]; simp)
    | (rename_i f hf; rw [check_data_addr_fault _ _ _ _ hf]; simp)
    | simp

theorem decode_execute_halted_iff (m : Machine) (i : Instruction) :
    (decode_execute m i).1 = Outcome.Halted ↔ i.cop = HALT := by
  apply decode_execute_cases (fun r => r.1 = Outcome.Halted ↔ i.cop = HALT) <;> intro hop
  · simp [load_not_halted, hop]
  · simp [store_not_halted, hop]
  · simp [add_not_halted, hop]
  · simp [sub_not_halted, hop]
  · simp [branch_not_halted, hop]
  · simp [call_not_halted, hop]
  · simp [ret_not_halted, hop]
  · simp [push_not_halted, hop]
  · simp [pop_not_halted, hop]
  · simp [hop]
  · simp [hop]
  · simp [hop]
  · simp only [HALT]
    constructor
    · intro h; simp at h
    · intro h; omega

theorem decode_execute_illop (m : Machine) (i : Instruction) (h : i.cop = ILLOP) :
    decode_execute m i = (Outcome.Fault Error.ERR_ILLEGAL (wsub m.pc 1), m) := by
  simp [decode_execute, h]

theorem decode_execute_unknown (m : Machine) (i : Instruction) (h : 12 ≤ i.cop) :
    decode_execute m i = (Outcome.Fault Error.ERR_UNKNOWN (wsub m.pc 1), m) := by
  have h0 : i.cop ≠ 0 := by omega
  have h1 : i.cop ≠ 1 := by omega
  have h2 : i.cop ≠ 2 := by omega
  have h3 : i.cop ≠ 3 := by omega
  have h4 : i.cop ≠ 4 := by omega
  have h5 : i.cop ≠ 5 := by omega
  have h6 : i.cop ≠ 6 := by omega
  have h7 : i.cop ≠ 7 := by omega
  have h8 : i.cop ≠ 8 := by omega
  have h9 : i.cop ≠ 9 := by omega
  have h10 : i.cop ≠ 10 := by omega
  have h11 : i.cop ≠ 11 := by omega
  simp [decode_execute, h0, h1, h2, h3, h4, h5, h6, h7, h8, h9, h10, h11]

theorem store_cc (m : Machine) (i : Instruction) (a : Nat) : (store m i a).2.cc = m.cc := by
  unfold store; dsimp only; repeat' split
  all_goals rfl

theorem branch_cc (m : Machine) (i : Instruction) (a : Nat) : (branch m i a).2.cc = m.cc := by
  unfold branch; dsimp only; repeat' split
  all_goals rfl

theorem call_cc (m : Machine) (i : Instruction) (a : Nat) : (call m i a).2.cc = m.cc := by
  unfold call; dsimp only; repeat' split
  all_goals rfl

theorem ret_cc (m : Machine) (i : Instruction) (a : Nat) : (ret m i a).2.cc = m.cc := by
  unfold ret; dsimp only; repeat' split
  all_goals rfl

theorem push_cc (m : Machine) (i : Instruction) (a : Nat) : (push m i a).2.cc = m.cc := by
  unfold push; dsimp only; repeat' split
  all_goals rfl

theorem pop_cc (m : Machine) (i : Instruction) (a : Nat) : (pop m i a).2.cc = m.cc := by
  unfold pop; dsimp only; repeat' split
  all_goals rfl

theorem decode_execute_cc (m : Machine) (i : Instruction)
    (h : i.cop ≠ LOAD ∧ i.cop ≠ ADD ∧ i.cop ≠ SUB) : (decode_execute m i).2.cc = m.cc := by
  apply decode_execute_cases (fun r => r.2.cc = m.cc) <;> intro hop
  · exact absurd hop h.1
  · exact store_cc _ _ _
  · exact absurd hop h.2.1
  · exact absurd hop h.2.2
  · exact branch_cc _ _ _
  · exact call_cc _ _ _
  · exact ret_cc _ _ _
  · exact push_cc _ _ _
  · exact pop_cc _ _ _
  · rfl
  · rfl
  · rfl
  · rfl

theorem check_stack_eq (m : Machine) (a : Nat) :
    check_stack m a =
      if m.dataend ≤ sp m ∧ sp m < m.datasize then none
      else some (Outcome.Fault Error.ERR_SEGSTACK a) := by
  unfold check_stack
  by_cases h : m.dataend ≤ sp m ∧ sp m < m.datasize
  · rw [if_pos h, if_neg (by omega)]
  · rw [if_neg h, if_pos (by omega)]

theorem push_segstack (m : Machine) (i : Instruction) (a : Nat) :
    ((∃ b, (push m i a).1 = Outcome.Fault Error.ERR_SEGSTACK b) ↔
      ¬ (m.dataend ≤ sp m ∧ sp m < m.datasize)) ∧
    (¬ (m.dataend ≤ sp m ∧ sp m < m.datasize) →
      (push m i a).1 = Outcome.Fault Error.ERR_SEGSTACK a) := by
  unfold push
  rw [check_stack_eq]
  by_cases h : m.dataend ≤ sp m ∧ sp m < m.datasize
  · rw [if_pos h]
    dsimp only
    refine ⟨⟨?_, fun hn => absurd h hn⟩, fun hn => absurd h hn⟩
    rintro ⟨b, hb⟩
    exfalso
    revert hb
    split
    · simp
    · cases hd : check_data_addr m (get_address m i) a with
      | none => simp
      | some f => rw [check_data_addr_fault _ _ _ _ hd]; simp
  · rw [if_neg h]
    exact ⟨⟨fun _ => h, fun _ => ⟨a, rfl⟩⟩, fun _ => rfl⟩

theorem call_segstack (m : Machine) (i : Instruction) (a : Nat) (hI : i.immediate = false) :
    ((∃ b, (call m i a).1 = Outcome.Fault Error.ERR_SEGSTACK b) ↔
      ¬ (m.dataend ≤ sp m ∧ sp m < m.datasize)) ∧
    (¬ (m.dataend ≤ sp m ∧ sp m < m.datasize) →
      (call m i a).1 = Outcome.Fault Error.ERR_SEGSTACK a) := by
  unfold call
  have hci : check_immediate i a = none := by simp [check_immediate, hI]
  rw [hci, check_stack_eq]
  by_cases h : m.dataend ≤ sp m ∧ sp m < m.datasize
  · rw [if_pos h]
    dsimp only
    refine ⟨⟨?_, fun hn => absurd h hn⟩, fun hn => absurd h hn⟩
    rintro ⟨b, hb⟩
    exfalso
    revert hb
    cases hc : allowed_condition m i a with
    | error f => rw [allowed_condition_fault _ _ _ _ hc]; simp
    | ok v => cases v <;> simp
  · rw [if_neg h]
    exact ⟨⟨fun _ => h, fun _ => ⟨a, rfl⟩⟩, fun _ => rfl⟩

theorem ret_segstack (m : Machine) (i : Instruction) (a : Nat)
    (hrl : m.registers.length = 16) :
    ((∃ b, (ret m i a).1 = Outcome.Fault Error.ERR_SEGSTACK b) ↔
      ¬ (m.dataend ≤ (sp m + 1) % 4294967296 ∧ (sp m + 1) % 4294967296 < m.datasize)) ∧
    (¬ (m.dataend ≤ (sp m + 1) % 4294967296 ∧ (sp m + 1) % 4294967296 < m.datasize) →
      (ret m i a).1 = Outcome.Fault Error.ERR_SEGSTACK a) := by
  unfold ret
  dsimp only
  rw [check_stack_eq]
  have e : sp (setSp m (wadd (sp m) 1)) = (sp m + 1) % 4294967296 := sp_setSp m _ hrl
  have e1 : (setSp m (wadd (sp m) 1)).dataend = m.dataend := rfl
  have e2 : (setSp m (wadd (sp m) 1)).datasize = m.datasize := rfl
  rw [e, e1, e2]
  by_cases h : m.dataend ≤ (sp m + 1) % 4294967296 ∧ (sp m + 1) % 4294967296 < m.datasize
  · rw [if_pos h]
    refine ⟨⟨?_, fun hn => absurd h hn⟩, fun hn => absurd h hn⟩
    rintro ⟨b, hb⟩
    simp at hb
  · rw [if_neg h]
    exact ⟨⟨fun _ => h, fun _ => ⟨a, rfl⟩⟩, fun _ => rfl⟩

theorem pop_segstack (m : Machine) (i : Instruction) (a : Nat)
    (hrl : m.registers.length = 16) (hI : i.immediate = false)
    (hadr : get_address m i ≤ m.datasize) :
    ((∃ b, (pop m i a).1 = Outcome.Fault Error.ERR_SEGSTACK b) ↔
      ¬ (m.dataend ≤ (sp m + 1) % 4294967296 ∧ (sp m + 1) % 4294967296 < m.datasize)) ∧
    (¬ (m.dataend ≤ (sp m + 1) % 4294967296 ∧ (sp m + 1) % 4294967296 < m.datasize) →
      (pop m i a).1 = Outcome.Fault Error.ERR_SEGSTACK a) := by
  unfold pop
  have hci : check_immediate i a = none := by simp [check_immediate, hI]
  have hcd : check_data_addr m (get_address m i) a = none := by
    simp [check_data_addr, hadr]
  rw [hci]
  dsimp only
  rw [hcd]
  dsimp only
  rw [check_stack_eq]
  have e : sp (setSp m (wadd (sp m) 1)) = (sp m + 1) % 4294967296 := sp_setSp m _ hrl
  have e1 : (setSp m (wadd (sp m) 1)).dataend = m.dataend := rfl
  have e2 : (setSp m (wadd (sp m) 1)).datasize = m.datasize := rfl
  rw [e, e1, e2]
  by_cases h : m.dataend ≤ (sp m + 1) % 4294967296 ∧ (sp m + 1) % 4294967296 < m.datasize
  · rw [if_pos h]
    refine ⟨⟨?_, fun hn => absurd h hn⟩, fun hn => absurd h hn⟩
    rintro ⟨b, hb⟩
    simp at hb
  · rw [if_neg h]
    exact ⟨⟨fun _ => h, fun _ => ⟨a, rfl⟩⟩, fun _ => rfl⟩

theorem reg_refresh_cc (m : Machine) (x r : Nat) : reg (refresh_cc m x) r = reg m r := by
  unfold refresh_cc; split_ifs <;> rfl

theorem data_refresh_cc (m : Machine) (x : Nat) : (refresh_cc m x).data = m.data := by
  unfold refresh_cc; split_ifs <;> rfl

theorem regcond_lt (i : Instruction) : i.regcond < 16 := by
  unfold Instruction.regcond; omega

theorem onlyReg_refresh_setReg (m : Machine) (d v x : Nat) :
    OnlyRegChanged m (refresh_cc (setReg m d v) x) d := by
  refine ⟨fun r hr => ?_, ?_⟩
  · rw [reg_refresh_cc]; exact reg_setReg_ne m d r v (fun e => hr e.symm)
  · rw [data_refresh_cc]; rfl

theorem reg_refresh_setReg (m : Machine) (d v x : Nat) (h : d < m.registers.length) :
    reg (refresh_cc (setReg m d v) x) d = v := by
  rw [reg_refresh_cc]; exact reg_setReg_same m d v h

theorem toWord_value (i : Instruction) :
    toWord i.value =
      if i.raw / 4096 % 1048576 < 524288 then i.raw / 4096 % 1048576
      else i.raw / 4096 % 1048576 + 4293918720 := by
  unfold toWord Instruction.value
  split_ifs <;> omega

theorem wadd_toWord (a : Nat) (z : Int) :
    ((wadd a (toWord z) : Nat) : Int) = ((a : Int) + z) % 4294967296 := by
  unfold wadd toWord; omega

theorem wsub_toWord (a : Nat) (z : Int) :
    ((wsub a (toWord z) : Nat) : Int) = ((a : Int) - z) % 4294967296 := by
  unfold wsub toWord; omega

theorem wsub_int (a b : Nat) :
    ((wsub a b : Nat) : Int) = ((a : Int) - (b : Int)) % 4294967296 := by
  unfold wsub; omega

theorem load_immediate_eq (m : Machine) (i : Instruction) (a : Nat) (hI : i.immediate = true) :
    load m i a = (Outcome.Continue,
      refresh_cc (setReg m i.regcond (toWord i.value))
        (reg (setReg m i.regcond (toWord i.value)) i.regcond)) := by
  simp [load, hI]

theorem add_immediate_eq (m : Machine) (i : Instruction) (a : Nat) (hI : i.immediate = true) :
    add m i a = (Outcome.Continue,
      refresh_cc (setReg m i.regcond (wadd (reg m i.regcond) (toWord i.value)))
        (reg (setReg m i.regcond (wadd (reg m i.regcond) (toWord i.value))) i.regcond)) := by
  simp [add, hI]

theorem sub_immediate_eq (m : Machine) (i : Instruction) (a : Nat) (hI : i.immediate = true) :
    sub m i a = (Outcome.Continue,
      refresh_cc (setReg m i.regcond (wsub (reg m i.regcond) (toWord i.value)))
        (reg (setReg m i.regcond (wsub (reg m i.regcond) (toWord i.value))) i.regcond)) := by
  simp [sub, hI]

theorem add_memory_eq (m : Machine) (i : Instruction) (a : Nat) (hI : i.immediate = false)
    (hadr : get_address m i ≤ m.datasize) :
    add m i a = (Outcome.Continue,
      refresh_cc (setReg m i.regcond (wadd (reg m i.regcond) (readData m (get_address m i))))
        (reg (setReg m i.regcond (wadd (reg m i.regcond) (readData m (get_address m i))))
          i.regcond)) := by
  have hcd : check_data_addr m (get_address m i) a = none := by
    simp [check_data_addr, hadr]
  simp [add, hI, hcd]

theorem sub_memory_eq (m : Machine) (i : Instruction) (a : Nat) (hI : i.immediate = false)
    (hadr : get_address m i ≤ m.datasize) :
    sub m i a = (Outcome.Continue,
      refresh_cc (setReg m i.regcond (wsub (reg m i.regcond) (readData m (get_address m i))))
        (reg (setReg m i.regcond (wsub (reg m i.regcond) (readData m (get_address m i))))
          i.regcond)) := by
  have hcd : check_data_addr m (get_address m i) a = none := by
    simp [check_data_addr, hadr]
  simp [sub, hI, hcd]

theorem store_memory_eq (m : Machine) (i : Instruction) (a : Nat) (hI : i.immediate = false)
    (hadr : get_address m i ≤ m.datasize) :
    store m i a = (Outcome.Continue, writeData m (get_address m i) (reg m i.regcond)) := by
  have hci : check_immediate i a = none := by simp [check_immediate, hI]
  have hcd : check_data_addr m (get_address m i) a = none := by
    simp [check_data_addr, hadr]
  simp [store, hci, hcd]

theorem allowed_condition_ok_of_le (m : Machine) (i : Instruction) (a : Nat)
    (h : i.regcond ≤ 6) : ∃ b, allowed_condition m i a = .ok b := by
  unfold allowed_condition
  split_ifs
  · exact ⟨_, rfl⟩
  · exact ⟨_, rfl⟩
  · exact ⟨_, rfl⟩
  · exact ⟨_, rfl⟩
  · exact ⟨_, rfl⟩
  · exact ⟨_, rfl⟩
  · exact ⟨_, rfl⟩
  · simp only [NC, EQ, NE, GT, GE, LT, LE] at *
    omega

theorem allowed_condition_ok_congr (m1 m2 : Machine) (i : Instruction) (a1 a2 : Nat) (b : Bool)
    (hcc : m1.cc = m2.cc) (h : allowed_condition m2 i a2 = .ok b) :
    allowed_condition m1 i a1 = .ok b := by
  unfold allowed_condition at h ⊢
  rw [hcc]
  split_ifs at h ⊢ <;> exact h

theorem branch_eq (m : Machine) (i : Instruction) (a : Nat) (b : Bool)
    (hI : i.immediate = false) (hc : allowed_condition m i a = .ok b) :
    branch m i a =
      (Outcome.Continue, if b = true then { m with pc := get_address m i } else m) := by
  have hci : check_immediate i a = none := by simp [check_immediate, hI]
  cases b <;> simp [branch, hci, hc]

theorem step_of_ge (s : Machine) (hpc : s.textsize ≤ s.pc) (hin : s.pc < s.text.length)
    (hpr : print_instruction (fetch s) s.pc ≠ none) :
    step s = (Outcome.Fault Error.ERR_SEGTEXT ((s.pc + 4294967295) % 4294967296), s) := by
  rw [step_segtext s hpc hin hpr, wsub_one]

theorem faultFrame_refl (m : Machine) : FaultFrame m m := ⟨rfl, rfl, fun _ _ => rfl⟩

theorem faultFrame_setSp (m : Machine) (v : Nat) : FaultFrame m (setSp m v) :=
  ⟨rfl, rfl, fun r hr => reg_setReg_ne m 15 r v (by omega)⟩

theorem load_fault_frame (m : Machine) (i : Instruction) (a : Nat) :
    (load m i a).1 = Outcome.Continue ∨ FaultFrame m (load m i a).2 := by
  unfold load; dsimp only; repeat' split
  all_goals first
    | exact Or.inl rfl
    | exact Or.inr (faultFrame_refl m)

theorem store_fault_frame (m : Machine) (i : Instruction) (a : Nat) :
    (store m i a).1 = Outcome.Continue ∨ FaultFrame m (store m i a).2 := by
  unfold store; dsimp only; repeat' split
  all_goals first
    | exact Or.inl rfl
    | exact Or.inr (faultFrame_refl m)

theorem add_fault_frame (m : Machine) (i : Instruction) (a : Nat) :
    (add m i a).1 = Outcome.Continue ∨ FaultFrame m (add m i a).2 := by
  unfold add; dsimp only; repeat' split
  all_goals first
    | exact Or.inl rfl
    | exact Or.inr (faultFrame_refl m)

theorem sub_fault_frame (m : Machine) (i : Instruction) (a : Nat) :
    (sub m i a).1 = Outcome.Continue ∨ FaultFrame m (sub m i a).2 := by
  unfold sub; dsimp only; repeat' split
  all_goals first
    | exact Or.inl rfl
    | exact Or.inr (faultFrame_refl m)

theorem branch_fault_frame (m : Machine) (i : Instruction) (a : Nat) :
    (branch m i a).1 = Outcome.Continue ∨ FaultFrame m (branch m i a).2 := by
  unfold branch; dsimp only; repeat' split
  all_goals first
    | exact Or.inl rfl
    | exact Or.inr (faultFrame_refl m)

theorem call_fault_frame (m : Machine) (i : Instruction) (a : Nat) :
    (call m i a).1 = Outcome.Continue ∨ FaultFrame m (call m i a).2 := by
  unfold call; dsimp only; repeat' split
  all_goals first
    | exact Or.inl rfl
    | exact Or.inr (faultFrame_refl m)

theorem ret_fault_frame (m : Machine) (i : Instruction) (a : Nat) :
    (ret m i a).1 = Outcome.Continue ∨ FaultFrame m (ret m i a).2 := by
  unfold ret; dsimp only; repeat' split
  all_goals first
    | exact Or.inl rfl
    | exact Or.inr (faultFrame_setSp m _)

theorem push_fault_frame (m : Machine) (i : Instruction) (a : Nat) :
    (push m i a).1 = Outcome.Continue ∨ FaultFrame m (push m i a).2 := by
  unfold push; dsimp only; repeat' split
  all_goals first
    | exact Or.inl rfl
    | exact Or.inr (faultFrame_refl m)

theorem pop_fault_frame (m : Machine) (i : Instruction) (a : Nat) :
    (pop m i a).1 = Outcome.Continue ∨ FaultFrame m (pop m i a).2 := by
  unfold pop; dsimp only; repeat' split
  all_goals first
    | exact Or.inl rfl
    | exact Or.inr (faultFrame_refl m)
    | exact Or.inr (faultFrame_setSp m _)

theorem decode_execute_fault_frame (m : Machine) (i : Instruction) :
    (decode_execute m i).1 = Outcome.Continue ∨ FaultFrame m (decode_execute m i).2 := by
  apply decode_execute_cases (fun r => r.1 = Outcome.Continue ∨ FaultFrame m r.2) <;> intro _
  · exact load_fault_frame _ _ _
  · exact store_fault_frame _ _ _
  · exact add_fault_frame _ _ _
  · exact sub_fault_frame _ _ _
  · exact branch_fault_frame _ _ _
  · exact call_fault_frame _ _ _
  · exact ret_fault_frame _ _ _
  · exact push_fault_frame _ _ _
  · exact pop_fault_frame _ _ _
  · exact Or.inr (faultFrame_refl m)
  · exact Or.inl rfl
  · exact Or.inr (faultFrame_refl m)
  · exact Or.inr (faultFrame_refl m)

theorem step_fault_frame (s : Machine) :
    (step s).1 = Outcome.Continue ∨ FaultFrame s (step s).2 := by
  rcases step_cases s with h | h | ⟨_, _, _, h⟩
  · rw [h]; exact Or.inr (faultFrame_refl s)
  · rw [h]; exact Or.inr (faultFrame_refl s)
  · rw [h]; exact decode_execute_fault_frame { s with pc := wadd s.pc 1 } (fetch s)

theorem check_stack_none_of (m : Machine) (a : Nat)
    (h : m.dataend ≤ sp m ∧ sp m < m.datasize) : check_stack m a = none := by
  rw [check_stack_eq, if_pos h]

theorem push_immediate_eq (m : Machine) (i : Instruction) (a : Nat) (hI : i.immediate = true)
    (hin : m.dataend ≤ sp m ∧ sp m < m.datasize) :
    push m i a = (Outcome.Continue,
      setSp (writeData m (sp m) (toWord i.value)) (wsub (sp m) 1)) := by
  have hst := check_stack_none_of m a hin
  simp [push, hst, hI, sp_writeData]

theorem pop_absolute_eq (m : Machine) (i : Instruction) (a : Nat) (hI : i.immediate = false)
    (hX : i.indexed = false) (hadr : i.address ≤ m.datasize)
    (hrl : m.registers.length = 16)
    (hin : m.dataend ≤ wadd (sp m) 1 ∧ wadd (sp m) 1 < m.datasize) :
    pop m i a = (Outcome.Continue,
      writeData (setSp m (wadd (sp m) 1)) i.address
        (readData (setSp m (wadd (sp m) 1)) (wadd (sp m) 1))) := by
  have hci : check_immediate i a = none := by simp [check_immediate, hI]
  have hg : get_address m i = i.address := by simp [get_address, hX]
  have hcd : check_data_addr m i.address a = none := by simp [check_data_addr, hadr]
  have hsp : sp (setSp m (wadd (sp m) 1)) = wadd (sp m) 1 := sp_setSp m _ hrl
  have hst : check_stack (setSp m (wadd (sp m) 1)) a = none :=
    check_stack_none_of _ a (by rw [hsp]; exact hin)
  simp only [pop, hci, hg, hcd, hst, hsp]

theorem readData_congr (m1 m2 : Machine) (a : Nat) (h : m1.data = m2.data) :
    readData m1 a = readData m2 a := by
  unfold readData; rw [h]

theorem refresh_cc_ne_N (m : Machine) (x : Nat) : (refresh_cc m x).cc ≠ Condition_Code.CC_N := by
  unfold refresh_cc
  split_ifs with h1 h2
  · exact absurd h1 (Nat.not_lt_zero x)
  · simp
  · simp

theorem load_cc_ne_N (m : Machine) (i : Instruction) (a : Nat)
    (h : m.cc ≠ Condition_Code.CC_N) : (load m i a).2.cc ≠ Condition_Code.CC_N := by
  unfold load; dsimp only; repeat' split
  all_goals first
    | exact refresh_cc_ne_N _ _
    | exact h

theorem add_cc_ne_N (m : Machine) (i : Instruction) (a : Nat)
    (h : m.cc ≠ Condition_Code.CC_N) : (add m i a).2.cc ≠ Condition_Code.CC_N := by
  unfold add; dsimp only; repeat' split
  all_goals first
    | exact refresh_cc_ne_N _ _
    | exact h

theorem sub_cc_ne_N (m : Machine) (i : Instruction) (a : Nat)
    (h : m.cc ≠ Condition_Code.CC_N) : (sub m i a).2.cc ≠ Condition_Code.CC_N := by
  unfold sub; dsimp only; repeat' split
  all_goals first
    | exact refresh_cc_ne_N _ _
    | exact h

theorem decode_execute_cc_ne_N (m : Machine) (i : Instruction)
    (h : m.cc ≠ Condition_Code.CC_N) : (decode_execute m i).2.cc ≠ Condition_Code.CC_N := by
  apply decode_execute_cases (fun r => r.2.cc ≠ Condition_Code.CC_N) <;> intro _
  · exact load_cc_ne_N _ _ _ h
  · rw [store_cc]; exact h
  · exact add_cc_ne_N _ _ _ h
  · exact sub_cc_ne_N _ _ _ h
  · rw [branch_cc]; exact h
  · rw [call_cc]; exact h
  · rw [ret_cc]; exact h
  · rw [push_cc]; exact h
  · rw [pop_cc]; exact h
  · exact h
  · exact h
  · exact h
  · exact h

theorem step_cc_ne_N (s : Machine) (h : s.cc ≠ Condition_Code.CC_N) :
    (step s).2.cc ≠ Condition_Code.CC_N := by
  rcases step_cases s with e | e | ⟨_, _, _, e⟩
  · rw [e]; exact h
  · rw [e]; exact h
  · rw [e]; exact decode_execute_cc_ne_N { s with pc := wadd s.pc 1 } (fetch s) h

theorem reach_cc_ne_N (ok : Instruction → Prop) (s0 s : Machine)
    (h0 : s0.cc ≠ Condition_Code.CC_N) (h : ContinueReach ok s0 s) :
    s.cc ≠ Condition_Code.CC_N := by
  induction h with
  | refl => exact h0
  | @tail s1 s2 _ _ hstep ih =>
    have := step_cc_ne_N s1 ih
    rw [hstep] at this
    exact this

theorem branch_not_taken (m : Machine) (i : Instruction) (a : Nat)
    (h : allowed_condition m i a = .ok false) : (branch m i a).2 = m := by
  unfold branch; dsimp only
  cases hci : check_immediate i a with
  | some f => rfl
  | none => simp only [h]

theorem call_not_taken (m : Machine) (i : Instruction) (a : Nat)
    (h : allowed_condition m i a = .ok false) : (call m i a).2 = m := by
  unfold call; dsimp only
  cases hci : check_immediate i a with
  | some f => rfl
  | none =>
    cases hst : check_stack m a with
    | some f => rfl
    | none => simp only [h]

theorem allowed_condition_LT (m : Machine) (i : Instruction) (a : Nat)
    (hcc : m.cc ≠ Condition_Code.CC_N) (h : i.regcond = LT) :
    allowed_condition m i a = .ok false := by
  cases hc : m.cc <;> first | exact absurd hc hcc | simp [allowed_condition, h, hc]

theorem allowed_condition_LE (m : Machine) (i : Instruction) (a : Nat)
    (hcc : m.cc ≠ Condition_Code.CC_N) (h : i.regcond = LE) :
    allowed_condition m i a = .ok (decide (m.cc = Condition_Code.CC_Z)) := by
  cases hc : m.cc <;> first | exact absurd hc hcc | simp [allowed_condition, h, hc]

theorem regcond_le_of_allowed (m : Machine) (i : Instruction) (a : Nat) (b : Bool)
    (h : allowed_condition m i a = .ok b) : i.regcond ≤ 6 := by
  by_contra hgt
  have h0 : i.regcond ≠ 0 := by omega
  have h1 : i.regcond ≠ 1 := by omega
  have h2 : i.regcond ≠ 2 := by omega
  have h3 : i.regcond ≠ 3 := by omega
  have h4 : i.regcond ≠ 4 := by omega
  have h5 : i.regcond ≠ 5 := by omega
  have h6 : i.regcond ≠ 6 := by omega
  simp [allowed_condition, h0, h1, h2, h3, h4, h5, h6] at h

theorem toSizeT_toInt_of_lt (n : Nat) (h : n < 2147483648) : toSizeT (toInt n) = n := by
  unfold toSizeT toInt
  split_ifs <;> omega

theorem toSizeT_toInt_ne (n m : Nat) (h1 : 2147483648 ≤ m) (h2 : m < 17179869184) :
    toSizeT (toInt n) ≠ m := by
  unfold toSizeT toInt
  split_ifs <;> omega

/-- An image whose header announces `2^29` text words or more is refused by
`read_program`, whatever follows the header. -/
theorem read_program_text_too_long (textsize datasize dataend : Nat) (rest : List Nat)
    (h1 : 536870912 ≤ textsize) (h2 : textsize < 4294967296) :
    read_program (textsize :: datasize :: dataend :: rest) = none := by
  unfold read_program
  dsimp only
  rw [if_pos (toSizeT_toInt_ne _ _ (by omega) (by omega))]

/-- An image whose header announces `2^29` data words or more is refused by
`read_program`, whatever follows the header. -/
theorem read_program_data_too_long (textsize datasize dataend : Nat) (rest : List Nat)
    (h1 : 536870912 ≤ datasize) (h2 : datasize < 4294967296) :
    read_program (textsize :: datasize :: dataend :: rest) = none := by
  unfold read_program
  dsimp only
  split
  · rfl
  · rw [if_pos (toSizeT_toInt_ne _ _ (by omega) (by omega))]

/-- A turn at a `pc` that is not below `textsize`, on a machine whose array
`_text` has `textsize` elements, reads `_text[_pc]` outside the array. -/
theorem step_past_text (s : Machine) (h : s.WF) (hpc : s.textsize ≤ s.pc) :
    step s = (Outcome.Undefined, s) :=
  step_undefined_of_ge s (by have := h.1; omega)

/-- The part of the immediate rejection that holds: a STORE or POP, and a
BRANCH or CALL whose condition field is in 0..6, with the immediate flag set,
makes the turn return the fault `ERR_IMMEDIATE` at the address of the
instruction. -/
theorem immediate_rejection_in_table (s : Machine) (h : s.WF) (hpc : s.pc < s.textsize)
    (hop : (fetch s).cop = STORE ∨ (fetch s).cop = POP ∨
      (((fetch s).cop = BRANCH ∨ (fetch s).cop = CALL) ∧ (fetch s).regcond ≤ 6))
    (hI : (fetch s).immediate = true) :
    (step s).1 = Outcome.Fault Error.ERR_IMMEDIATE s.pc := by
  have ha := instr_addr s h hpc
  rcases hop with hc | hc | ⟨hc, hr⟩
  · rw [step_of_plain s hpc (by rw [hc]; decide)]
    simp [decode_execute, hc, store, check_immediate, hI, ha]
  · rw [step_of_plain s hpc (by rw [hc]; decide)]
    simp [decode_execute, hc, pop, check_immediate, hI, ha]
  · rw [step_of_cond s hpc hc hr]
    rcases hc with hc | hc <;>
      simp [decode_execute, hc, branch, call, check_immediate, hI, ha]

/-- The outcome by opcode as the turn computes it: `Halted` exactly for HALT,
the fault `ERR_ILLEGAL` for ILLOP, and no defined outcome for an opcode in
12..63, which `trace` looks up in `cop_names` before `decode_execute` is
reached. -/
theorem outcome_by_opcode_in_table (s : Machine) (h : s.WF) (hpc : s.pc < s.textsize) :
    (fetch s).cop < 64 ∧
    ((step s).1 = Outcome.Halted ↔ (fetch s).cop = HALT) ∧
    ((fetch s).cop = ILLOP → (step s).1 = Outcome.Fault Error.ERR_ILLEGAL s.pc) ∧
    (12 ≤ (fetch s).cop → step s = (Outcome.Undefined, s)) := by
  have ha := instr_addr s h hpc
  have hlt : (fetch s).cop < 64 := by unfold Instruction.cop; omega
  have hin : s.pc < s.text.length := by have := h.1; omega
  refine ⟨hlt, ?_, ?_, ?_⟩
  · constructor
    · intro hh
      rcases step_cases s with e | e | ⟨_, _, _, e⟩
      · rw [e] at hh; simp at hh
      · rw [e] at hh; simp at hh
      · rw [e] at hh; exact (decode_execute_halted_iff _ _).mp hh
    · intro hc
      rw [step_of_plain s hpc (by rw [hc]; decide)]
      exact (decode_execute_halted_iff _ _).mpr hc
  · intro hc
    have hpr : print_instruction (fetch s) s.pc ≠ none := by
      intro hn
      have := (print_instruction_none_iff _ _).mp hn
      simp only [ILLOP, BRANCH, CALL] at hc this
      omega
    rw [step_exec s hpc hin hpr, decode_execute_illop _ _ hc]
    show Outcome.Fault Error.ERR_ILLEGAL (wsub (wadd s.pc 1) 1) = _
    rw [ha]
  · intro hc
    exact step_undefined_of_print s ((print_instruction_none_iff _ _).mpr (Or.inl hc))

/-- The stack check ordering as the turn computes it, for a PUSH, a RET, a POP
and a CALL whose condition field is in 0..6. -/
theorem stack_check_ordering_in_table (s : Machine) (h : s.WF) (hpc : s.pc < s.textsize) :
    ((fetch s).cop = PUSH →
      ((∃ b, (step s).1 = Outcome.Fault Error.ERR_SEGSTACK b) ↔
        ¬ (s.dataend ≤ sp s ∧ sp s < s.datasize)) ∧
      (¬ (s.dataend ≤ sp s ∧ sp s < s.datasize) →
        (step s).1 = Outcome.Fault Error.ERR_SEGSTACK s.pc)) ∧
    ((fetch s).cop = CALL → (fetch s).immediate = false → (fetch s).regcond ≤ 6 →
      ((∃ b, (step s).1 = Outcome.Fault Error.ERR_SEGSTACK b) ↔
        ¬ (s.dataend ≤ sp s ∧ sp s < s.datasize)) ∧
      (¬ (s.dataend ≤ sp s ∧ sp s < s.datasize) →
        (step s).1 = Outcome.Fault Error.ERR_SEGSTACK s.pc)) ∧
    ((fetch s).cop = RET →
      ((∃ b, (step s).1 = Outcome.Fault Error.ERR_SEGSTACK b) ↔
        ¬ (s.dataend ≤ (sp s + 1) % 4294967296 ∧ (sp s + 1) % 4294967296 < s.datasize)) ∧
      (¬ (s.dataend ≤ (sp s + 1) % 4294967296 ∧ (sp s + 1) % 4294967296 < s.datasize) →
        (step s).1 = Outcome.Fault Error.ERR_SEGSTACK s.pc)) ∧
    ((fetch s).cop = POP → (fetch s).immediate = false →
      get_address s (fetch s) ≤ s.datasize →
      ((∃ b, (step s).1 = Outcome.Fault Error.ERR_SEGSTACK b) ↔
        ¬ (s.dataend ≤ (sp s + 1) % 4294967296 ∧ (sp s + 1) % 4294967296 < s.datasize)) ∧
      (¬ (s.dataend ≤ (sp s + 1) % 4294967296 ∧ (sp s + 1) % 4294967296 < s.datasize) →
        (step s).1 = Outcome.Fault Error.ERR_SEGSTACK s.pc)) := by
  have ha := instr_addr s h hpc
  have hrl : ({ s with pc := wadd s.pc 1 } : Machine).registers.length = 16 := h.2.2.1
  refine ⟨?_, ?_, ?_, ?_⟩
  · intro hc
    rw [step_of_plain s hpc (by rw [hc]; decide)]
    have e : decode_execute { s with pc := wadd s.pc 1 } (fetch s) =
        push { s with pc := wadd s.pc 1 } (fetch s) s.pc := by
      simp [decode_execute, hc, ha]
    rw [e]
    exact push_segstack { s with pc := wadd s.pc 1 } (fetch s) s.pc
  · intro hc hI hr
    rw [step_of_cond s hpc (Or.inr hc) hr]
    have e : decode_execute { s with pc := wadd s.pc 1 } (fetch s) =
        call { s with pc := wadd s.pc 1 } (fetch s) s.pc := by
      simp [decode_execute, hc, ha]
    rw [e]
    exact call_segstack { s with pc := wadd s.pc 1 } (fetch s) s.pc hI
  · intro hc
    rw [step_of_plain s hpc (by rw [hc]; decide)]
    have e : decode_execute { s with pc := wadd s.pc 1 } (fetch s) =
        ret { s with pc := wadd s.pc 1 } (fetch s) s.pc := by
      simp [decode_execute, hc, ha]
    rw [e]
    exact ret_segstack { s with pc := wadd s.pc 1 } (fetch s) s.pc hrl
  · intro hc hI hadr
    rw [step_of_plain s hpc (by rw [hc]; decide)]
    have e : decode_execute { s with pc := wadd s.pc 1 } (fetch s) =
        pop { s with pc := wadd s.pc 1 } (fetch s) s.pc := by
      simp [decode_execute, hc, ha]
    rw [e]
    exact pop_segstack { s with pc := wadd s.pc 1 } (fetch s) s.pc hrl hI hadr

/-- The BRANCH as the turn computes it: with the immediate flag clear and the
condition field in 0..6 the turn returns `Continue`, `pc` becomes the
effective address when the condition holds and `pc + 1` otherwise, and
registers, condition code and data are as before. When the branch is taken to
an address that is not below `textsize`, the following turn reads `_text[_pc]`
outside the array before it compares `_pc` with `textsize`. -/
theorem branch_step_in_table (s : Machine) (h : s.WF) (hpc : s.pc < s.textsize)
    (hcop : (fetch s).cop = BRANCH) (hI : (fetch s).immediate = false)
    (hrc : (fetch s).regcond ≤ 6) :
    ∃ b : Bool, allowed_condition s (fetch s) s.pc = .ok b ∧
      (step s).1 = Outcome.Continue ∧
      (step s).2.pc = (if b = true then get_address s (fetch s) else s.pc + 1) ∧
      (step s).2.registers = s.registers ∧ (step s).2.cc = s.cc ∧
      (step s).2.data = s.data ∧
      (b = true → s.textsize ≤ get_address s (fetch s) →
        (step (step s).2).1 = Outcome.Undefined) := by
  obtain ⟨b, hb⟩ := allowed_condition_ok_of_le s (fetch s) s.pc hrc
  have hb1 : allowed_condition { s with pc := wadd s.pc 1 } (fetch s) (wsub (wadd s.pc 1) 1) =
      .ok b := allowed_condition_ok_congr _ s _ _ _ b rfl hb
  have hp1 := pc_succ s h hpc
  have hg : get_address { s with pc := wadd s.pc 1 } (fetch s) = get_address s (fetch s) := rfl
  have e : step s = branch { s with pc := wadd s.pc 1 } (fetch s) (wsub (wadd s.pc 1) 1) := by
    rw [step_of_cond s hpc (Or.inl hcop) hrc]; simp [decode_execute, hcop]
  refine ⟨b, hb, ?_⟩
  rw [e, branch_eq _ _ _ b hI hb1, hg]
  cases b with
  | false =>
    refine ⟨rfl, ?_, rfl, rfl, rfl, ?_⟩
    · simpa using hp1
    · intro hf; cases hf
  | true =>
    refine ⟨rfl, rfl, rfl, rfl, rfl, ?_⟩
    intro _ hge
    simp only [if_true]
    rw [step_undefined_of_ge _ (by
      show s.text.length ≤ get_address s (fetch s)
      have := h.1
      omega)]

/-! ## Claims -/

/-- C1 (the code at the failing input): on the freshly loaded machine whose
program is `LOAD R0, #-1`, the step returns `Continue`, register 0 holds
`0xFFFFFFFF` (top bit set, `-1` as a signed word) and the condition code is
`CC_P`, not `CC_N`. -/
theorem C1_load_minus_one_sets_P :
    instr_load_r0_minus1.cop = LOAD ∧ instr_load_r0_minus1.immediate = true ∧
    instr_load_r0_minus1.regcond = 0 ∧ instr_load_r0_minus1.value = -1 ∧
    (step (load_program 1 [instr_load_r0_minus1] 16 zeros16 8)).1 = Outcome.Continue ∧
    reg (step (load_program 1 [instr_load_r0_minus1] 16 zeros16 8)).2 0 = 4294967295 ∧
    (step (load_program 1 [instr_load_r0_minus1] 16 zeros16 8)).2.cc = Condition_Code.CC_P := by
  decide

/-- C2 (counterexample): two freshly loaded machines with `dataend = 6`,
`datasize = 16` (a stack region of 10 cells). After the single step of
`LOAD R15, #0`, which returns `Continue`, SP is 0; after the ten steps of ten
`PUSH #0`, which all return `Continue`, SP is 5. Both reached states violate
`dataend ≤ SP < datasize`. -/
theorem C2_stack_invariant_counterexample :
    (6 ≤ 16 ∧ 6 + MINSTACKSIZE ≤ 16) ∧
    ContinueReach (fun _ => True) (load_program 1 [instr_load_r15_0] 16 zeros16 6)
      (simul 1 (load_program 1 [instr_load_r15_0] 16 zeros16 6)).2 ∧
    sp (simul 1 (load_program 1 [instr_load_r15_0] 16 zeros16 6)).2 = 0 ∧
    ¬ ((simul 1 (load_program 1 [instr_load_r15_0] 16 zeros16 6)).2.dataend ≤
        sp (simul 1 (load_program 1 [instr_load_r15_0] 16 zeros16 6)).2 ∧
      sp (simul 1 (load_program 1 [instr_load_r15_0] 16 zeros16 6)).2 <
        (simul 1 (load_program 1 [instr_load_r15_0] 16 zeros16 6)).2.datasize) ∧
    ContinueReach (fun _ => True)
      (load_program 10 (List.replicate 10 instr_push_0) 16 zeros16 6)
      (simul 10 (load_program 10 (List.replicate 10 instr_push_0) 16 zeros16 6)).2 ∧
    sp (simul 10 (load_program 10 (List.replicate 10 instr_push_0) 16 zeros16 6)).2 = 5 ∧
    ¬ ((simul 10 (load_program 10 (List.replicate 10 instr_push_0) 16 zeros16 6)).2.dataend ≤
        sp (simul 10 (load_program 10 (List.replicate 10 instr_push_0) 16 zeros16 6)).2 ∧
      sp (simul 10 (load_program 10 (List.replicate 10 instr_push_0) 16 zeros16 6)).2 <
        (simul 10 (load_program 10 (List.replicate 10 instr_push_0) 16 zeros16 6)).2.datasize) :=
  ⟨by decide,
   simul_reach 1 _ _ (by decide), by decide, by decide,
   simul_reach 10 _ _ (by decide), by decide, by decide⟩

/-- C2 (amended): in every state reached from a freshly loaded state (with
`datasize` a 32-bit value and a stack region of at least `MINSTACKSIZE` cells)
by any number of steps that each return `Continue` and none of which executes
a LOAD, ADD or SUB with destination register 15, `dataend` and `datasize` are
those of the load and `dataend ≤ SP + 1 ≤ datasize` holds, `SP + 1` being
computed on 32 bits: SP is below `datasize` and at least `dataend - 1`. -/
theorem C2_stack_invariant_amended (textsize : Nat) (text : List Instruction) (datasize : Nat)
    (data : List Nat) (dataend : Nat) (s : Machine)
    (hds : datasize < 4294967296) (hstack : dataend + MINSTACKSIZE ≤ datasize)
    (hreach : ContinueReach (fun i => writes_sp i = false)
      (load_program textsize text datasize data dataend) s) :
    s.dataend = dataend ∧ s.datasize = datasize ∧
    dataend ≤ (sp s + 1) % 4294967296 ∧ (sp s + 1) % 4294967296 ≤ datasize := by
  have key : s.dataend = dataend ∧ s.datasize = datasize ∧ s.registers.length = 16 ∧
      StackInv s := by
    induction hreach with
    | refl =>
      refine ⟨rfl, rfl, by simp [load_program, setSp, setReg], ?_⟩
      unfold StackInv
      have e : sp (load_program textsize text datasize data dataend) =
          (datasize + 4294967295) % 4294967296 :=
        sp_load_program textsize text datasize data dataend
      rw [e]
      show dataend ≤ _ ∧ _ ≤ datasize
      simp only [MINSTACKSIZE] at hstack
      omega
    | @tail s1 s2 _ hok hstep ih =>
      obtain ⟨i1, i2, i3, i4⟩ := ih
      have hk := keeps_step s1
      rw [hstep] at hk
      obtain ⟨_, _, k3, k4, k5, _⟩ := hk
      have hc : (step s1).1 = Outcome.Continue := by rw [hstep]
      have hinv := step_stackInv s1 i3 (by omega) hok i4 hc
      rw [hstep] at hinv
      exact ⟨k4.trans i1, k3.trans i2, k5.trans i3, hinv⟩
  obtain ⟨k1, k2, _, k4⟩ := key
  unfold StackInv at k4
  rw [k1, k2] at k4
  exact ⟨k1, k2, k4⟩

/-- C2 (amended) witness: one `PUSH #0` on a freshly loaded machine with
`dataend = 6` and `datasize = 16` leaves SP at 14. -/
theorem C2_stack_invariant_amended_witness :
    sp (simul 1 (load_program 1 [instr_push_0] 16 zeros16 6)).2 = 14 ∧
    (simul 1 (load_program 1 [instr_push_0] 16 zeros16 6)).2.dataend = 6 ∧
    (simul 1 (load_program 1 [instr_push_0] 16 zeros16 6)).2.datasize = 16 ∧
    6 ≤ (sp (simul 1 (load_program 1 [instr_push_0] 16 zeros16 6)).2 + 1) % 4294967296 ∧
    (sp (simul 1 (load_program 1 [instr_push_0] 16 zeros16 6)).2 + 1) % 4294967296 ≤ 16 :=
  ⟨by decide,
   C2_stack_invariant_amended 1 [instr_push_0] 16 zeros16 6
    (simul 1 (load_program 1 [instr_push_0] 16 zeros16 6)).2 (by decide) (by decide)
    (ContinueReach.tail ContinueReach.refl (by decide) (by decide))⟩

/-- C3 (the code at the failing input): the word 1862 is a BRANCH with the
immediate flag set and the condition field 7. On the freshly loaded machine
that holds it at address 0, `decode_execute` answers the fault `ERR_IMMEDIATE`
at address 0, but the turn of the simulation loop first hands the instruction
to `trace`, where `print_condition` reads `condition_names[7]`, past the end
of the 7-entry table: the turn has no defined outcome and does not return the
fault. -/
theorem C3_immediate_condition_out_of_table :
    instr_branch_imm_cond7.raw < 4294967296 ∧
    instr_branch_imm_cond7.cop = BRANCH ∧ instr_branch_imm_cond7.immediate = true ∧
    instr_branch_imm_cond7.regcond = 7 ∧
    (load_program 1 [instr_branch_imm_cond7] 16 zeros16 8).pc <
      (load_program 1 [instr_branch_imm_cond7] 16 zeros16 8).textsize ∧
    fetch (load_program 1 [instr_branch_imm_cond7] 16 zeros16 8) = instr_branch_imm_cond7 ∧
    (decode_execute { load_program 1 [instr_branch_imm_cond7] 16 zeros16 8 with pc := 1 }
      instr_branch_imm_cond7).1 = Outcome.Fault Error.ERR_IMMEDIATE 0 ∧
    print_condition instr_branch_imm_cond7 = none ∧
    trace "Executing" (load_program 1 [instr_branch_imm_cond7] 16 zeros16 8)
      instr_branch_imm_cond7 0 = none ∧
    (step (load_program 1 [instr_branch_imm_cond7] 16 zeros16 8)).1 = Outcome.Undefined ∧
    (step (load_program 1 [instr_branch_imm_cond7] 16 zeros16 8)).1 ≠
      Outcome.Fault Error.ERR_IMMEDIATE 0 := by
  decide

/-- C4: from a state whose instruction at `pc = P` is a CALL without immediate
flag, with SP inside `[dataend, datasize)`, whose condition is satisfied and
which transfers control to `A < textsize` where `text[A]` is a RET, two steps
both return `Continue`; afterwards `pc = P + 1`, SP and CC have their values
of before the CALL, and the data cell at the former SP holds `P + 1`. The
target `A` is the effective address of the operand as `call` computes it,
after `_sp--`: it is the operand address in the starting state unless the
operand is indexed by register 15. -/
theorem C4_call_ret_symmetry (s : Machine) (A : Nat) (h : s.WF) (hpc : s.pc < s.textsize)
    (hsp : s.dataend ≤ sp s ∧ sp s < s.datasize)
    (hcop : (fetch s).cop = CALL) (hI : (fetch s).immediate = false)
    (hcond : allowed_condition s (fetch s) s.pc = .ok true)
    (htarget : get_address (setSp s (wsub (sp s) 1)) (fetch s) = A)
    (hA : A < s.textsize)
    (hret : (s.text.getD A ⟨0⟩).cop = RET) :
    (step s).1 = Outcome.Continue ∧
    (step (step s).2).1 = Outcome.Continue ∧
    (step (step s).2).2.pc = s.pc + 1 ∧
    sp (step (step s).2).2 = sp s ∧
    (step (step s).2).2.cc = s.cc ∧
    readData (step (step s).2).2 (sp s) = s.pc + 1 := by
  have hwf := h
  obtain ⟨_, hdl, hrl, hts, hds, _, _, _, _, _⟩ := h
  have hpc1 := pc_succ s hwf hpc
  have hs1 : step s = (Outcome.Continue,
      { setSp (writeData { s with pc := s.pc + 1 } (sp s) (s.pc + 1)) (wsub (sp s) 1) with
        pc := A }) := by
    rw [step_of_cond s hpc (Or.inr hcop) (regcond_le_of_allowed _ _ _ _ hcond), hpc1]
    have hc : allowed_condition { s with pc := s.pc + 1 } (fetch s) (wsub (s.pc + 1) 1) =
        .ok true := allowed_condition_congr _ s _ _ _ rfl hcond
    have hst : check_stack { s with pc := s.pc + 1 } (wsub (s.pc + 1) 1) = none := by
      have e : sp { s with pc := s.pc + 1 } = sp s := rfl
      simp [check_stack, e]; omega
    have hg : get_address
        (setSp (writeData { s with pc := s.pc + 1 } (sp s) (s.pc + 1)) (wsub (sp s) 1))
        (fetch s) = A := by
      rw [← htarget]; exact get_address_congr _ _ _ rfl
    have e2 : sp (writeData { s with pc := s.pc + 1 } (sp s) (s.pc + 1)) = sp s := rfl
    have e3 : sp { s with pc := s.pc + 1 } = sp s := rfl
    have e4 : ({ s with pc := s.pc + 1 } : Machine).pc = s.pc + 1 := rfl
    simp only [decode_execute, hcop, call, check_immediate, hI, hst, hc, e2, e3, e4, hg]
    simp
  have hrl16 : s.registers.length = 16 := hrl
  have hspw : sp s < 4294967296 := by omega
  generalize hs1d : ({ setSp (writeData { s with pc := s.pc + 1 } (sp s) (s.pc + 1))
      (wsub (sp s) 1) with pc := A } : Machine) = s1 at hs1
  have f_pc : s1.pc = A := by rw [← hs1d]
  have f_ts : s1.textsize = s.textsize := by rw [← hs1d]; rfl
  have f_tx : s1.text = s.text := by rw [← hs1d]; rfl
  have f_cc : s1.cc = s.cc := by rw [← hs1d]; rfl
  have f_de : s1.dataend = s.dataend := by rw [← hs1d]; rfl
  have f_ds : s1.datasize = s.datasize := by rw [← hs1d]; rfl
  have f_rl : s1.registers.length = 16 := by
    rw [← hs1d]; simp [setSp, setReg, writeData, hrl16]
  have f_sp : sp s1 = wsub (sp s) 1 := by
    rw [← hs1d]
    exact reg_setReg_same (writeData { s with pc := s.pc + 1 } (sp s) (s.pc + 1)) 15 _
      (by show 15 < s.registers.length; omega)
  have f_rd : readData s1 (sp s) = s.pc + 1 := by
    rw [← hs1d]
    exact readData_writeData_same { s with pc := s.pc + 1 } (sp s) (s.pc + 1)
      (by show sp s < s.data.length; omega)
  have hpcA : s1.pc < s1.textsize := by omega
  have hs2 : step s1 = (Outcome.Continue,
      { setSp { s1 with pc := wadd s1.pc 1 } (sp s) with pc := s.pc + 1 }) := by
    have hf : (fetch s1).cop = RET := by
      unfold fetch; rw [f_tx, f_pc]; exact hret
    rw [step_of_plain s1 hpcA (by rw [hf]; decide)]
    have e1 : sp { s1 with pc := wadd s1.pc 1 } = sp s1 := rfl
    have e5 : wadd (sp s1) 1 = sp s := by rw [f_sp]; exact wadd_wsub_one _ hspw
    have e6 : sp (setSp { s1 with pc := wadd s1.pc 1 } (sp s)) = sp s :=
      reg_setReg_same { s1 with pc := wadd s1.pc 1 } 15 _
        (by show 15 < s1.registers.length; omega)
    have hst : check_stack (setSp { s1 with pc := wadd s1.pc 1 } (sp s))
        (wsub (wadd s1.pc 1) 1) = none := by
      have ede : (setSp { s1 with pc := wadd s1.pc 1 } (sp s)).dataend = s.dataend := f_de
      have eds : (setSp { s1 with pc := wadd s1.pc 1 } (sp s)).datasize = s.datasize := f_ds
      simp only [check_stack, e6, ede, eds]
      simp; omega
    have hrd : readData (setSp { s1 with pc := wadd s1.pc 1 } (sp s)) (sp s) = s.pc + 1 := f_rd
    have e7 : ({ s1 with pc := wadd s1.pc 1 } : Machine).pc = wadd s1.pc 1 := rfl
    simp only [decode_execute, hf, ret, e1, e5, e6, e7, hst, hrd]
    simp
  have r1 : (step s).1 = Outcome.Continue := by rw [hs1]
  have r2 : (step s).2 = s1 := by rw [hs1]
  have q1 : (step s1).1 = Outcome.Continue := by rw [hs2]
  have q2 : (step s1).2 =
      { setSp { s1 with pc := wadd s1.pc 1 } (sp s) with pc := s.pc + 1 } := by rw [hs2]
  rw [r2, q2]
  refine ⟨r1, q1, rfl, ?_, f_cc, f_rd⟩
  exact reg_setReg_same { s1 with pc := wadd s1.pc 1 } 15 _
    (by show 15 < s1.registers.length; omega)

/-- C4 witness: the program `CALL NC, @2; HALT; RET` on a freshly loaded machine
with `datasize = 16`, `dataend = 8`: after two steps `pc = 1`, `SP = 15` and
`data[15] = 1`. -/
theorem C4_call_ret_symmetry_witness :
    (step (load_program 3 [instr_call_nc_at2, instr_halt, instr_ret] 16 zeros16 8)).1 =
      Outcome.Continue ∧
    (step (step (load_program 3 [instr_call_nc_at2, instr_halt, instr_ret] 16 zeros16 8)).2).1 =
      Outcome.Continue ∧
    (step (step (load_program 3 [instr_call_nc_at2, instr_halt, instr_ret] 16 zeros16 8)).2).2.pc =
      0 + 1 ∧
    sp (step (step (load_program 3 [instr_call_nc_at2, instr_halt, instr_ret] 16 zeros16 8)).2).2 =
      15 ∧
    (step (step (load_program 3 [instr_call_nc_at2, instr_halt, instr_ret] 16 zeros16 8)).2).2.cc =
      Condition_Code.CC_U ∧
    readData
      (step (step (load_program 3 [instr_call_nc_at2, instr_halt, instr_ret] 16 zeros16 8)).2).2
      15 = 0 + 1 :=
  C4_call_ret_symmetry (load_program 3 [instr_call_nc_at2, instr_halt, instr_ret] 16 zeros16 8) 2
    (by decide) (by decide) (by decide) (by decide) (by decide) rfl (by decide)
    (by decide) (by decide)

/-- C5 (the code at the failing input): with `datasize = 16`, the instruction
`LOAD R0, @16` has the effective address 16, the index one past the last data
cell; `check_data_addr` raises nothing for it and the step returns `Continue`
instead of the fault `ERR_SEGDATA`. -/
theorem C5_address_datasize_accepted :
    instr_load_r0_at16.cop = LOAD ∧ instr_load_r0_at16.immediate = false ∧
    get_address (load_program 1 [instr_load_r0_at16] 16 zeros16 8) instr_load_r0_at16 = 16 ∧
    (load_program 1 [instr_load_r0_at16] 16 zeros16 8).datasize = 16 ∧
    check_data_addr (load_program 1 [instr_load_r0_at16] 16 zeros16 8) 16 0 = none ∧
    (step (load_program 1 [instr_load_r0_at16] 16 zeros16 8)).1 = Outcome.Continue := by
  decide

/-- C6: a LOAD, STORE, ADD or SUB without immediate flag whose effective
address is strictly above `datasize` makes the step return the fault
`ERR_SEGDATA` at the address of the instruction, and the registers, the data
segment and the condition code are left as they were. -/
theorem C6_segdata_above_datasize (s : Machine) (h : s.WF) (hpc : s.pc < s.textsize)
    (hop : (fetch s).cop = LOAD ∨ (fetch s).cop = STORE ∨ (fetch s).cop = ADD ∨
      (fetch s).cop = SUB)
    (hI : (fetch s).immediate = false)
    (ha : get_address s (fetch s) > s.datasize) :
    (step s).1 = Outcome.Fault Error.ERR_SEGDATA s.pc ∧
    (step s).2.registers = s.registers ∧ (step s).2.data = s.data ∧
    (step s).2.cc = s.cc := by
  rw [step_of_plain s hpc (by rcases hop with hc | hc | hc | hc <;> rw [hc] <;> decide)]
  have hadr := instr_addr s h hpc
  have hg : get_address { s with pc := wadd s.pc 1 } (fetch s) = get_address s (fetch s) := rfl
  rcases hop with hc | hc | hc | hc <;>
    simp [decode_execute, hc, load, store, add, sub, check_immediate, check_data_addr,
      hI, hadr, hg, ha]

/-- C6 witness: `datasize = 16` and `LOAD R0, @17` at address 0. -/
theorem C6_segdata_above_datasize_witness :
    (step (load_program 1 [instr_load_r0_at17] 16 zeros16 8)).1 =
      Outcome.Fault Error.ERR_SEGDATA 0 ∧
    (step (load_program 1 [instr_load_r0_at17] 16 zeros16 8)).2.registers =
      (load_program 1 [instr_load_r0_at17] 16 zeros16 8).registers ∧
    (step (load_program 1 [instr_load_r0_at17] 16 zeros16 8)).2.data =
      (load_program 1 [instr_load_r0_at17] 16 zeros16 8).data ∧
    (step (load_program 1 [instr_load_r0_at17] 16 zeros16 8)).2.cc =
      (load_program 1 [instr_load_r0_at17] 16 zeros16 8).cc :=
  C6_segdata_above_datasize (load_program 1 [instr_load_r0_at17] 16 zeros16 8)
    (by decide) (by decide) (by decide) (by decide) (by decide)

/-- C7: when the fetched opcode is NOP, LOAD, STORE, ADD, SUB, PUSH or POP and
the step returns `Continue`, the program counter after the step is the program
counter before the step plus 1. -/
theorem C7_pc_progression (s : Machine) (h : s.WF) (hpc : s.pc < s.textsize)
    (hop : (fetch s).cop = NOP ∨ (fetch s).cop = LOAD ∨ (fetch s).cop = STORE ∨
      (fetch s).cop = ADD ∨ (fetch s).cop = SUB ∨ (fetch s).cop = PUSH ∨
      (fetch s).cop = POP)
    (_hcont : (step s).1 = Outcome.Continue) :
    (step s).2.pc = s.pc + 1 := by
  rw [step_of_plain s hpc
    (by rcases hop with hc | hc | hc | hc | hc | hc | hc <;> rw [hc] <;> decide),
    ← pc_succ s h hpc]
  rcases hop with hc | hc | hc | hc | hc | hc | hc <;>
    simp [decode_execute, hc, load_pc, store_pc, add_pc, sub_pc, push_pc, pop_pc]

/-- C7 witness: `LOAD R3, #7` at address 0 leaves the program counter at 1. -/
theorem C7_pc_progression_witness :
    (step (load_program 1 [instr_load_r3_7] 16 zeros16 8)).1 = Outcome.Continue ∧
    (step (load_program 1 [instr_load_r3_7] 16 zeros16 8)).2.pc = 0 + 1 :=
  ⟨by decide, C7_pc_progression (load_program 1 [instr_load_r3_7] 16 zeros16 8)
    (by decide) (by decide) (by decide) (by decide)⟩

/-- C8: `allowed_condition` answers true for NC; for EQ, NE, GT, GE, LT, LE it
answers whether the condition code is Z, is not Z, is P, is P or Z, is N, is N
or Z; for a condition field in 7..15 it raises the fault `ERR_CONDITION`. With
the condition code U, the conditions that hold are exactly NC and NE. -/
theorem C8_condition_evaluation (pmach : Machine) (instr : Instruction) (addr : Nat) :
    instr.regcond < 16 ∧
    (instr.regcond = NC → allowed_condition pmach instr addr = .ok true) ∧
    (instr.regcond = EQ →
      allowed_condition pmach instr addr = .ok (decide (pmach.cc = Condition_Code.CC_Z))) ∧
    (instr.regcond = NE →
      allowed_condition pmach instr addr = .ok (decide (pmach.cc ≠ Condition_Code.CC_Z))) ∧
    (instr.regcond = GT →
      allowed_condition pmach instr addr = .ok (decide (pmach.cc = Condition_Code.CC_P))) ∧
    (instr.regcond = GE →
      allowed_condition pmach instr addr =
        .ok (decide (pmach.cc = Condition_Code.CC_P ∨ pmach.cc = Condition_Code.CC_Z))) ∧
    (instr.regcond = LT →
      allowed_condition pmach instr addr = .ok (decide (pmach.cc = Condition_Code.CC_N))) ∧
    (instr.regcond = LE →
      allowed_condition pmach instr addr =
        .ok (decide (pmach.cc = Condition_Code.CC_N ∨ pmach.cc = Condition_Code.CC_Z))) ∧
    (7 ≤ instr.regcond →
      allowed_condition pmach instr addr = .error (Outcome.Fault Error.ERR_CONDITION addr)) ∧
    (pmach.cc = Condition_Code.CC_U →
      (allowed_condition pmach instr addr = .ok true ↔
        instr.regcond = NC ∨ instr.regcond = NE)) := by
  have hlt : instr.regcond < 16 := by unfold Instruction.regcond; omega
  refine ⟨hlt, ?_, ?_, ?_, ?_, ?_, ?_, ?_, ?_, ?_⟩
  · intro h; simp [allowed_condition, h]
  · intro h; cases hc : pmach.cc <;> simp [allowed_condition, h, hc]
  · intro h; cases hc : pmach.cc <;> simp [allowed_condition, h, hc]
  · intro h; cases hc : pmach.cc <;> simp [allowed_condition, h, hc]
  · intro h; cases hc : pmach.cc <;> simp [allowed_condition, h, hc]
  · intro h; cases hc : pmach.cc <;> simp [allowed_condition, h, hc]
  · intro h; cases hc : pmach.cc <;> simp [allowed_condition, h, hc]
  · intro h
    have h0 : instr.regcond ≠ 0 := by omega
    have h1 : instr.regcond ≠ 1 := by omega
    have h2 : instr.regcond ≠ 2 := by omega
    have h3 : instr.regcond ≠ 3 := by omega
    have h4 : instr.regcond ≠ 4 := by omega
    have h5 : instr.regcond ≠ 5 := by omega
    have h6 : instr.regcond ≠ 6 := by omega
    simp [allowed_condition, h0, h1, h2, h3, h4, h5, h6]
  · intro hc
    obtain ⟨c, hcd⟩ : ∃ c, instr.regcond = c := ⟨_, rfl⟩
    rw [hcd] at hlt
    interval_cases c <;> simp [allowed_condition, hc, hcd]

/-- C9 (the code at the failing inputs): after the only instruction
`LOAD R3, #7` of a freshly loaded program, `pc = 1 = textsize`; the next turn
passes `_text[1]` to `trace` before it compares `pc` with `textsize`, and the
array `_text` has the single element `_text[0]`: the turn reads outside the
array and has no defined outcome, instead of the fault `ERR_SEGTEXT` at
address 0. The same holds for the first turn of a program with an empty text
segment. -/
theorem C9_fetch_before_bound_check :
    (step (load_program 1 [instr_load_r3_7] 16 zeros16 8)).1 = Outcome.Continue ∧
    (step (load_program 1 [instr_load_r3_7] 16 zeros16 8)).2.pc = 1 ∧
    (step (load_program 1 [instr_load_r3_7] 16 zeros16 8)).2.textsize = 1 ∧
    (step (load_program 1 [instr_load_r3_7] 16 zeros16 8)).2.text.length = 1 ∧
    (step (load_program 1 [instr_load_r3_7] 16 zeros16 8)).2.text[1]? = none ∧
    (step (step (load_program 1 [instr_load_r3_7] 16 zeros16 8)).2).1 = Outcome.Undefined ∧
    (step (step (load_program 1 [instr_load_r3_7] 16 zeros16 8)).2).1 ≠
      Outcome.Fault Error.ERR_SEGTEXT 0 ∧
    (load_program 0 [] 16 zeros16 8).textsize ≤ (load_program 0 [] 16 zeros16 8).pc ∧
    (step (load_program 0 [] 16 zeros16 8)).1 = Outcome.Undefined := by
  decide

/-- C10: `load_program` leaves a machine with `pc = 0`, condition code U,
registers 0..14 equal to 0, register 15 (SP) equal to `datasize - 1` modulo
`2^32`, and text, textsize, data, datasize, dataend equal to its arguments. -/
theorem C10_loader_initial_state (textsize : Nat) (text : List Instruction) (datasize : Nat)
    (data : List Nat) (dataend : Nat) :
    (load_program textsize text datasize data dataend).pc = 0 ∧
    (load_program textsize text datasize data dataend).cc = Condition_Code.CC_U ∧
    (∀ r, r < 15 → reg (load_program textsize text datasize data dataend) r = 0) ∧
    reg (load_program textsize text datasize data dataend) 15 =
      (datasize + 4294967295) % 4294967296 ∧
    (0 < datasize → datasize < 4294967296 →
      reg (load_program textsize text datasize data dataend) 15 = datasize - 1) ∧
    (datasize = 0 → reg (load_program textsize text datasize data dataend) 15 = 4294967295) ∧
    (load_program textsize text datasize data dataend).text = text ∧
    (load_program textsize text datasize data dataend).textsize = textsize ∧
    (load_program textsize text datasize data dataend).data = data ∧
    (load_program textsize text datasize data dataend).datasize = datasize ∧
    (load_program textsize text datasize data dataend).dataend = dataend := by
  have e15 : reg (load_program textsize text datasize data dataend) 15 =
      (datasize + 4294967295) % 4294967296 := by
    exact sp_load_program textsize text datasize data dataend
  refine ⟨rfl, rfl, ?_, e15, ?_, ?_, rfl, rfl, rfl, rfl, rfl⟩
  · intro r hr
    unfold load_program setSp
    refine (reg_setReg_ne _ 15 r _ (by omega)).trans ?_
    have hr16 : r < 16 := by omega
    simp [reg, List.getD_eq_getElem?_getD, List.getElem?_replicate, hr16]
  · intro h0 h1; rw [e15]; omega
  · intro h0; rw [e15, h0]

/-- C11 (counterexample): the image `image_of_zeros 536870912 0` is made of
the header `textsize = 2^29`, `datasize = 0`, `dataend = 0` followed by exactly
`2^29` text words and no data word. Its text segment is `2^31` bytes long: the
byte count that `read` returns does not fit the `int` in which `read_program`
keeps it, the comparison with the size requested fails and `read_program`
leaves through `exit(1)`: nothing is loaded and nothing is dumped. The same
holds for the image `image_of_zeros 0 536870912`, with no text word and `2^29`
data words. -/
theorem C11_loader_round_trip_counterexample :
    image_of_zeros 536870912 0 =
      536870912 :: 0 :: 0 :: (List.replicate 536870912 0 ++ List.replicate 0 0) ∧
    (List.replicate 536870912 0).length = 536870912 ∧
    (List.replicate 0 0).length = 0 ∧
    read_program (image_of_zeros 536870912 0) = none ∧
    ¬ ((read_program (image_of_zeros 536870912 0)).bind dump_memory =
      some (image_of_zeros 536870912 0)) ∧
    read_program (image_of_zeros 0 536870912) = none ∧
    ¬ ((read_program (image_of_zeros 0 536870912)).bind dump_memory =
      some (image_of_zeros 0 536870912)) := by
  have h : read_program (image_of_zeros 536870912 0) = none :=
    read_program_text_too_long 536870912 0 0 _ (by decide) (by decide)
  have h' : read_program (image_of_zeros 0 536870912) = none :=
    read_program_data_too_long 0 536870912 0 _ (by decide) (by decide)
  refine ⟨rfl, List.length_replicate _ _, List.length_replicate _ _, h, ?_, h', ?_⟩
  · rw [h]; simp
  · rw [h']; simp

/-- C11 (amended): for an image made of the three header words `textsize`,
`datasize`, `dataend` followed by exactly `textsize` text words and `datasize`
data words, where `textsize` and `datasize` are below `2^29` (each segment is
shorter than `2^31` bytes), `read_program` succeeds and `dump_memory` of the
machine it loads writes the same sequence of words. -/
theorem C11_loader_round_trip_amended (textsize datasize dataend : Nat) (text data : List Nat)
    (htext : text.length = textsize) (hdata : data.length = datasize)
    (hts : textsize < 536870912) (hds : datasize < 536870912) :
    (read_program (textsize :: datasize :: dataend :: (text ++ data))).bind dump_memory =
      some (textsize :: datasize :: dataend :: (text ++ data)) := by
  subst htext hdata
  have a1 : toSizeT (toInt (4 * text.length)) = 4 * text.length :=
    toSizeT_toInt_of_lt _ (by omega)
  have a2 : toSizeT (toInt (4 * data.length)) = 4 * data.length :=
    toSizeT_toInt_of_lt _ (by omega)
  have h1 : (read_program (text.length :: data.length :: dataend :: (text ++ data))) =
      some (load_program text.length (text.map Instruction.mk) data.length data dataend) := by
    simp [read_program, a1, a2]
  rw [h1]
  have e1 : (load_program text.length (text.map Instruction.mk) data.length data dataend).text
      = text.map Instruction.mk := rfl
  have e2 : (load_program text.length (text.map Instruction.mk) data.length data dataend).data
      = data := rfl
  have e3 : (load_program text.length (text.map Instruction.mk) data.length data dataend).textsize
      = text.length := rfl
  have e4 : (load_program text.length (text.map Instruction.mk) data.length data dataend).datasize
      = data.length := rfl
  have e5 : (load_program text.length (text.map Instruction.mk) data.length data dataend).dataend
      = dataend := rfl
  have n1 : ¬ (text.length ≥ 2147483648 ∨ data.length ≥ 2147483648) := by omega
  simp only [Option.some_bind, dump_memory, readData, e1, e2, e3, e4, e5]
  rw [if_neg n1, if_neg (by rw [a2]; exact fun hne => hne rfl)]
  have t1 : (List.range text.length).map
      (fun i => ((text.map Instruction.mk).getD i ⟨0⟩).raw) = text := by
    have := map_getD_range text 0
    conv_rhs => rw [← this]
    apply List.map_congr_left
    intro i hi
    simp [List.getD_eq_getElem?_getD]
  rw [t1, map_getD_range data 0]
  simp

/-- C11 witness: the image with one text word (`LOAD R3, #7`), two data words
and `dataend = 2`. -/
theorem C11_loader_round_trip_amended_witness :
    (read_program (1 :: 2 :: 2 :: ([29506] ++ [5, 6]))).bind dump_memory =
      some (1 :: 2 :: 2 :: ([29506] ++ [5, 6])) :=
  C11_loader_round_trip_amended 1 2 2 [29506] [5, 6] rfl rfl (by decide) (by decide)

/-- C12: for a 6-bit opcode, flags I and X, a regcond in 0..15 and a payload in
one of the three formats (absolute address below `2^20`; signed immediate in
`-2^19 .. 2^19 - 1`; index register in 0..15 with signed offset in
`-2^15 .. 2^15 - 1`), the word packed at the bit positions of the layout fits
in 32 bits and the field accessors, with sign extension of the signed fields,
return the fields that were packed. -/
theorem C12_decode_round_trip (cop regcond : Nat) (i x : Bool) (hcop : cop < 64)
    (hrc : regcond < 16) :
    (∀ a : Nat, a < 1048576 →
      (pack_absolute cop i x regcond a).raw < 4294967296 ∧
      (pack_absolute cop i x regcond a).cop = cop ∧
      (pack_absolute cop i x regcond a).immediate = i ∧
      (pack_absolute cop i x regcond a).indexed = x ∧
      (pack_absolute cop i x regcond a).regcond = regcond ∧
      (pack_absolute cop i x regcond a).address = a) ∧
    (∀ v : Int, -524288 ≤ v → v < 524288 →
      (pack_immediate cop i x regcond v).raw < 4294967296 ∧
      (pack_immediate cop i x regcond v).cop = cop ∧
      (pack_immediate cop i x regcond v).immediate = i ∧
      (pack_immediate cop i x regcond v).indexed = x ∧
      (pack_immediate cop i x regcond v).regcond = regcond ∧
      (pack_immediate cop i x regcond v).value = v) ∧
    (∀ (r : Nat) (o : Int), r < 16 → -32768 ≤ o → o < 32768 →
      (pack_indexed cop i x regcond r o).raw < 4294967296 ∧
      (pack_indexed cop i x regcond r o).cop = cop ∧
      (pack_indexed cop i x regcond r o).immediate = i ∧
      (pack_indexed cop i x regcond r o).indexed = x ∧
      (pack_indexed cop i x regcond r o).regcond = regcond ∧
      (pack_indexed cop i x regcond r o).rindex = r ∧
      (pack_indexed cop i x regcond r o).offset = o) := by
  refine ⟨?_, ?_, ?_⟩
  · intro a ha
    obtain ⟨h1, h2, h3, h4, h5, h6⟩ := pack_fields cop regcond a i x hcop hrc ha
    exact ⟨h1, h2, h3, h4, h5, h6⟩
  · intro v hv1 hv2
    have hp : (v % 1048576).toNat < 1048576 := by omega
    obtain ⟨h1, h2, h3, h4, h5, h6⟩ :=
      pack_fields cop regcond (v % 1048576).toNat i x hcop hrc hp
    refine ⟨h1, h2, h3, h4, h5, ?_⟩
    unfold Instruction.value pack_immediate
    rw [h6]
    split_ifs <;> omega
  · intro r o hr ho1 ho2
    have hp : r + 16 * (o % 65536).toNat < 1048576 := by omega
    obtain ⟨h1, h2, h3, h4, h5, h6⟩ :=
      pack_fields cop regcond (r + 16 * (o % 65536).toNat) i x hcop hrc hp
    refine ⟨h1, h2, h3, h4, h5, ?_, ?_⟩
    · unfold Instruction.rindex pack_indexed
      omega
    · have h7 : (pack_indexed cop i x regcond r o).raw / 65536 % 65536 = (o % 65536).toNat := by
        unfold pack_indexed
        omega
      unfold Instruction.offset
      rw [h7]
      split_ifs <;> omega

/-- C12 witness: opcode LOAD, I = 1, X = 0, regcond 3, immediate value -1. -/
theorem C12_decode_round_trip_witness :
    (pack_immediate LOAD true false 3 (-1)).raw < 4294967296 ∧
    (pack_immediate LOAD true false 3 (-1)).cop = LOAD ∧
    (pack_immediate LOAD true false 3 (-1)).immediate = true ∧
    (pack_immediate LOAD true false 3 (-1)).indexed = false ∧
    (pack_immediate LOAD true false 3 (-1)).regcond = 3 ∧
    (pack_immediate LOAD true false 3 (-1)).value = -1 :=
  (C12_decode_round_trip LOAD 3 true false (by decide) (by decide)).2.1 (-1)
    (by decide) (by decide)

/-- C13: on a freshly loaded machine with `textsize ≥ 1`, `text[0]` the
instruction `CALL NC, @0` (absolute, I = 0) and `dataend < datasize`, each of
the first `datasize - dataend` steps returns `Continue`, and the step that
follows returns the fault `ERR_SEGSTACK` at address 0. -/
theorem C13_recursion_overflow (textsize : Nat) (text : List Instruction) (datasize : Nat)
    (data : List Nat) (dataend : Nat)
    (hts : 1 ≤ textsize) (hds : datasize < 4294967296) (hde : dataend < datasize)
    (hcop : (text.getD 0 ⟨0⟩).cop = CALL) (hI : (text.getD 0 ⟨0⟩).immediate = false)
    (hX : (text.getD 0 ⟨0⟩).indexed = false) (hrc : (text.getD 0 ⟨0⟩).regcond = NC)
    (hadr : (text.getD 0 ⟨0⟩).address = 0) :
    (∀ k, k ≤ datasize - dataend →
      (simul k (load_program textsize text datasize data dataend)).1 = Outcome.Continue) ∧
    (step (simul (datasize - dataend)
      (load_program textsize text datasize data dataend)).2).1 =
      Outcome.Fault Error.ERR_SEGSTACK 0 := by
  have hf : fetch (load_program textsize text datasize data dataend) = text.getD 0 ⟨0⟩ := rfl
  have hat : AtSelfCall (load_program textsize text datasize data dataend) := by
    refine ⟨rfl, hts, ?_, ?_, ?_, ?_, ?_, ?_, hds⟩
    · rw [hf]; exact hcop
    · rw [hf]; exact hI
    · rw [hf]; exact hX
    · rw [hf]; exact hrc
    · rw [hf]; exact hadr
    · simp [load_program, setSp, setReg]
  have hsp : sp (load_program textsize text datasize data dataend) =
      (datasize + 4294967295) % 4294967296 :=
    sp_load_program textsize text datasize data dataend
  have hde0 : (load_program textsize text datasize data dataend).dataend = dataend := rfl
  have hds0 : (load_program textsize text datasize data dataend).datasize = datasize := rfl
  have r := self_call_loop (datasize - dataend)
    (load_program textsize text datasize data dataend) hat (by rw [hsp]; omega)
    (by rw [hsp, hde0]; omega) (by rw [hde0, hds0]; omega)
  exact ⟨fun k hk => simul_continue_le _ k _ hk r.1, r.2⟩

/-- C13 witness: `dataend = 14`, `datasize = 16`: the first two calls return
`Continue` and the third one faults. -/
theorem C13_recursion_overflow_witness :
    (simul 1 (load_program 1 [instr_call_nc_at0] 16 zeros16 14)).1 = Outcome.Continue ∧
    (simul 2 (load_program 1 [instr_call_nc_at0] 16 zeros16 14)).1 = Outcome.Continue ∧
    (step (simul (16 - 14) (load_program 1 [instr_call_nc_at0] 16 zeros16 14)).2).1 =
      Outcome.Fault Error.ERR_SEGSTACK 0 :=
  ⟨(C13_recursion_overflow 1 [instr_call_nc_at0] 16 zeros16 14 (by decide) (by decide)
      (by decide) (by decide) (by decide) (by decide) (by decide) (by decide)).1 1 (by decide),
   (C13_recursion_overflow 1 [instr_call_nc_at0] 16 zeros16 14 (by decide) (by decide)
      (by decide) (by decide) (by decide) (by decide) (by decide) (by decide)).1 2 (by decide),
   (C13_recursion_overflow 1 [instr_call_nc_at0] 16 zeros16 14 (by decide) (by decide)
      (by decide) (by decide) (by decide) (by decide) (by decide) (by decide)).2⟩

/-- C14 (the code at the failing inputs): the words 12 and 40 have the opcodes
12 and 40, outside the enumerated set. On the freshly loaded machine that
holds such a word at address 0, `decode_execute` answers the fault
`ERR_UNKNOWN` at address 0, but the turn of the simulation loop first hands
the instruction to `trace`, where `print_instruction` reads `cop_names[12]`
or `cop_names[40]`, past the end of the 12-entry table: the turn has no
defined outcome and does not return the fault. -/
theorem C14_unknown_opcode_out_of_table :
    instr_cop40.raw < 4294967296 ∧ instr_cop40.cop = 40 ∧ instr_cop12.cop = 12 ∧
    (load_program 1 [instr_cop40] 16 zeros16 8).pc <
      (load_program 1 [instr_cop40] 16 zeros16 8).textsize ∧
    fetch (load_program 1 [instr_cop40] 16 zeros16 8) = instr_cop40 ∧
    (decode_execute { load_program 1 [instr_cop40] 16 zeros16 8 with pc := 1 }
      instr_cop40).1 = Outcome.Fault Error.ERR_UNKNOWN 0 ∧
    cop_names[instr_cop40.cop]? = none ∧
    trace "Executing" (load_program 1 [instr_cop40] 16 zeros16 8) instr_cop40 0 = none ∧
    (step (load_program 1 [instr_cop40] 16 zeros16 8)).1 = Outcome.Undefined ∧
    (step (load_program 1 [instr_cop40] 16 zeros16 8)).1 ≠
      Outcome.Fault Error.ERR_UNKNOWN 0 ∧
    (decode_execute { load_program 1 [instr_cop12] 16 zeros16 8 with pc := 1 }
      instr_cop12).1 = Outcome.Fault Error.ERR_UNKNOWN 0 ∧
    (step (load_program 1 [instr_cop12] 16 zeros16 8)).1 = Outcome.Undefined := by
  decide

/-- C15: whatever the step returns, the text segment, `textsize`, `datasize`
and `dataend` after the step are those of before the step; the same holds for
the execution of any instruction word by `decode_execute`. -/
theorem C15_text_and_bounds_immutable (s : Machine) (instr : Instruction) :
    ((step s).2.text = s.text ∧ (step s).2.textsize = s.textsize ∧
      (step s).2.datasize = s.datasize ∧ (step s).2.dataend = s.dataend) ∧
    ((decode_execute s instr).2.text = s.text ∧
      (decode_execute s instr).2.textsize = s.textsize ∧
      (decode_execute s instr).2.datasize = s.datasize ∧
      (decode_execute s instr).2.dataend = s.dataend) := by
  obtain ⟨a1, a2, a3, a4, _, _⟩ := keeps_step s
  obtain ⟨b1, b2, b3, b4, _, _⟩ := keeps_decode_execute s instr
  exact ⟨⟨a1, a2, a3, a4⟩, ⟨b1, b2, b3, b4⟩⟩

/-- C16: when the opcode of the fetched instruction is not LOAD, ADD or SUB,
the condition code after the step is the condition code before the step,
whatever the step returns; the same holds for the execution of any such
instruction word by `decode_execute`. -/
theorem C16_cc_only_load_add_sub (s : Machine) (instr : Instruction) :
    ((fetch s).cop ≠ LOAD ∧ (fetch s).cop ≠ ADD ∧ (fetch s).cop ≠ SUB →
      (step s).2.cc = s.cc) ∧
    (instr.cop ≠ LOAD ∧ instr.cop ≠ ADD ∧ instr.cop ≠ SUB →
      (decode_execute s instr).2.cc = s.cc) := by
  refine ⟨?_, decode_execute_cc s instr⟩
  intro h
  rcases step_cases s with e | e | ⟨_, _, _, e⟩
  · rw [e]
  · rw [e]
  · rw [e]; exact decode_execute_cc { s with pc := wadd s.pc 1 } (fetch s) h

/-- C17 (the code at the failing inputs): the instruction word 12 has the
opcode 12, which is not an index of the 12-entry table `cop_names`, and the
word 1798 (`BRANCH` with regcond 7) has a condition field that is not an index
of the 7-entry table `condition_names`; for both, `print_instruction` reads
past the end of a table. -/
theorem C17_lookup_out_of_bounds :
    instr_cop12.raw < 4294967296 ∧ instr_cop12.cop = 12 ∧ cop_names.length = 12 ∧
    cop_names[instr_cop12.cop]? = none ∧ print_instruction instr_cop12 0 = none ∧
    instr_branch_cond7.raw < 4294967296 ∧ instr_branch_cond7.cop = BRANCH ∧
    instr_branch_cond7.regcond = 7 ∧ condition_names.length = 7 ∧
    condition_names[instr_branch_cond7.regcond]? = none ∧
    print_instruction instr_branch_cond7 0 = none := by
  decide

/-- C18 (the code at the failing input): in the program `LOAD R15, #0` followed
by a CALL without immediate flag whose condition field is 7, the first turn
sets SP to 0, below `dataend = 8`. For the CALL, `call` answers the fault
`ERR_SEGSTACK` at address 1, its stack check coming before the evaluation of
the condition; but the turn of the simulation loop first hands the
instruction to `trace`, where `print_condition` reads `condition_names[7]`,
past the end of the 7-entry table: the turn has no defined outcome and does
not return the fault although SP is outside `[dataend, datasize)`. -/
theorem C18_call_condition_out_of_table :
    instr_call_cond7.raw < 4294967296 ∧
    instr_call_cond7.cop = CALL ∧ instr_call_cond7.immediate = false ∧
    instr_call_cond7.regcond = 7 ∧
    (step (load_program 2 [instr_load_r15_0, instr_call_cond7] 16 zeros16 8)).1 =
      Outcome.Continue ∧
    (step (load_program 2 [instr_load_r15_0, instr_call_cond7] 16 zeros16 8)).2.pc = 1 ∧
    fetch (step (load_program 2 [instr_load_r15_0, instr_call_cond7] 16 zeros16 8)).2 =
      instr_call_cond7 ∧
    sp (step (load_program 2 [instr_load_r15_0, instr_call_cond7] 16 zeros16 8)).2 = 0 ∧
    (step (load_program 2 [instr_load_r15_0, instr_call_cond7] 16 zeros16 8)).2.dataend = 8 ∧
    ¬ ((step (load_program 2 [instr_load_r15_0, instr_call_cond7] 16 zeros16 8)).2.dataend ≤
        sp (step (load_program 2 [instr_load_r15_0, instr_call_cond7] 16 zeros16 8)).2 ∧
      sp (step (load_program 2 [instr_load_r15_0, instr_call_cond7] 16 zeros16 8)).2 <
        (step (load_program 2 [instr_load_r15_0, instr_call_cond7] 16 zeros16 8)).2.datasize) ∧
    (call { (step (load_program 2 [instr_load_r15_0, instr_call_cond7] 16 zeros16 8)).2 with
      pc := 2 } instr_call_cond7 1).1 = Outcome.Fault Error.ERR_SEGSTACK 1 ∧
    print_condition instr_call_cond7 = none ∧
    (step (step (load_program 2 [instr_load_r15_0, instr_call_cond7] 16 zeros16 8)).2).1 =
      Outcome.Undefined ∧
    ¬ (∃ b, (step (step (load_program 2 [instr_load_r15_0, instr_call_cond7]
      16 zeros16 8)).2).1 = Outcome.Fault Error.ERR_SEGSTACK b) := by
  refine ⟨by decide, by decide, by decide, by decide, by decide, by decide, by decide,
    by decide, by decide, by decide, by decide, by decide, by decide, ?_⟩
  rintro ⟨b, hb⟩
  have hu : (step (step (load_program 2 [instr_load_r15_0, instr_call_cond7]
      16 zeros16 8)).2).1 = Outcome.Undefined := by decide
  rw [hu] at hb
  cases hb

/-- C19: a LOAD with the immediate flag set, destination `d` and 20-bit payload
`v` makes the step return `Continue`; afterwards register `d` holds the sign
extension of `v` to 32 bits (`v` when bit 19 is clear, `v + 0xFFF00000`
otherwise) and no other register and no data cell has changed. -/
theorem C19_load_immediate (s : Machine) (h : s.WF) (hpc : s.pc < s.textsize)
    (hcop : (fetch s).cop = LOAD) (hI : (fetch s).immediate = true) :
    (step s).1 = Outcome.Continue ∧
    reg (step s).2 (fetch s).regcond =
      (if (fetch s).raw / 4096 % 1048576 < 524288 then (fetch s).raw / 4096 % 1048576
       else (fetch s).raw / 4096 % 1048576 + 4293918720) ∧
    (∀ r, r ≠ (fetch s).regcond → reg (step s).2 r = reg s r) ∧
    (step s).2.data = s.data := by
  have hrl : (fetch s).regcond < ({ s with pc := wadd s.pc 1 } : Machine).registers.length := by
    have := regcond_lt (fetch s)
    have h16 : s.registers.length = 16 := h.2.2.1
    show (fetch s).regcond < s.registers.length
    omega
  have e : step s = load { s with pc := wadd s.pc 1 } (fetch s) (wsub (wadd s.pc 1) 1) := by
    rw [step_of_plain s hpc (by rw [hcop]; decide)]; simp [decode_execute, hcop]
  rw [e, load_immediate_eq _ _ _ hI]
  refine ⟨rfl, ?_, ?_, ?_⟩
  · rw [← toWord_value]
    exact reg_refresh_setReg _ _ _ _ hrl
  · exact (onlyReg_refresh_setReg { s with pc := wadd s.pc 1 } _ _ _).1
  · exact (onlyReg_refresh_setReg { s with pc := wadd s.pc 1 } _ _ _).2

/-- C19 witness: `LOAD R3, #7` on the freshly loaded machine gives `R3 = 7`,
`CC = P` and `pc = 1`. -/
theorem C19_load_immediate_witness :
    ((step (load_program 1 [instr_load_r3_7] 16 zeros16 8)).1 = Outcome.Continue ∧
      reg (step (load_program 1 [instr_load_r3_7] 16 zeros16 8)).2
        (fetch (load_program 1 [instr_load_r3_7] 16 zeros16 8)).regcond =
        (if (fetch (load_program 1 [instr_load_r3_7] 16 zeros16 8)).raw / 4096 % 1048576
            < 524288
         then (fetch (load_program 1 [instr_load_r3_7] 16 zeros16 8)).raw / 4096 % 1048576
         else (fetch (load_program 1 [instr_load_r3_7] 16 zeros16 8)).raw / 4096 % 1048576
            + 4293918720) ∧
      (∀ r, r ≠ (fetch (load_program 1 [instr_load_r3_7] 16 zeros16 8)).regcond →
        reg (step (load_program 1 [instr_load_r3_7] 16 zeros16 8)).2 r =
          reg (load_program 1 [instr_load_r3_7] 16 zeros16 8) r) ∧
      (step (load_program 1 [instr_load_r3_7] 16 zeros16 8)).2.data =
        (load_program 1 [instr_load_r3_7] 16 zeros16 8).data) ∧
    reg (step (load_program 1 [instr_load_r3_7] 16 zeros16 8)).2 3 = 7 ∧
    (step (load_program 1 [instr_load_r3_7] 16 zeros16 8)).2.cc = Condition_Code.CC_P ∧
    (step (load_program 1 [instr_load_r3_7] 16 zeros16 8)).2.pc = 1 :=
  ⟨C19_load_immediate (load_program 1 [instr_load_r3_7] 16 zeros16 8)
    (by decide) (by decide) (by decide) (by decide), by decide, by decide, by decide⟩

/-- C20: an ADD (resp. SUB) with destination `d` makes the step return
`Continue` and leaves in register `d` the value `(Rd + v) mod 2^32` (resp.
`(Rd - v) mod 2^32`), where `v` is the signed immediate when the immediate
flag is set and the data cell at the effective address `a < datasize`
otherwise; no other register and no data cell has changed. -/
theorem C20_add_sub_wrap (s : Machine) (h : s.WF) (hpc : s.pc < s.textsize) :
    ((fetch s).cop = ADD → (fetch s).immediate = true →
      (step s).1 = Outcome.Continue ∧
      ((reg (step s).2 (fetch s).regcond : Nat) : Int) =
        ((reg s (fetch s).regcond : Int) + (fetch s).value) % 4294967296 ∧
      OnlyRegChanged s (step s).2 (fetch s).regcond) ∧
    ((fetch s).cop = ADD → (fetch s).immediate = false →
      get_address s (fetch s) < s.datasize →
      (step s).1 = Outcome.Continue ∧
      reg (step s).2 (fetch s).regcond =
        (reg s (fetch s).regcond + readData s (get_address s (fetch s))) % 4294967296 ∧
      OnlyRegChanged s (step s).2 (fetch s).regcond) ∧
    ((fetch s).cop = SUB → (fetch s).immediate = true →
      (step s).1 = Outcome.Continue ∧
      ((reg (step s).2 (fetch s).regcond : Nat) : Int) =
        ((reg s (fetch s).regcond : Int) - (fetch s).value) % 4294967296 ∧
      OnlyRegChanged s (step s).2 (fetch s).regcond) ∧
    ((fetch s).cop = SUB → (fetch s).immediate = false →
      get_address s (fetch s) < s.datasize →
      (step s).1 = Outcome.Continue ∧
      ((reg (step s).2 (fetch s).regcond : Nat) : Int) =
        ((reg s (fetch s).regcond : Int) - (readData s (get_address s (fetch s)) : Int))
          % 4294967296 ∧
      OnlyRegChanged s (step s).2 (fetch s).regcond) := by
  have hrl : (fetch s).regcond < ({ s with pc := wadd s.pc 1 } : Machine).registers.length := by
    have := regcond_lt (fetch s)
    have h16 : s.registers.length = 16 := h.2.2.1
    show (fetch s).regcond < s.registers.length
    omega
  have hg : get_address { s with pc := wadd s.pc 1 } (fetch s) = get_address s (fetch s) := rfl
  have hr : reg { s with pc := wadd s.pc 1 } (fetch s).regcond = reg s (fetch s).regcond := rfl
  have hd : ∀ a, readData { s with pc := wadd s.pc 1 } a = readData s a := fun _ => rfl
  have hds : ({ s with pc := wadd s.pc 1 } : Machine).datasize = s.datasize := rfl
  refine ⟨?_, ?_, ?_, ?_⟩
  · intro hcop hI
    have e : step s = add { s with pc := wadd s.pc 1 } (fetch s) (wsub (wadd s.pc 1) 1) := by
      rw [step_of_plain s hpc (by rw [hcop]; decide)]; simp [decode_execute, hcop]
    rw [e, add_immediate_eq _ _ _ hI]
    refine ⟨rfl, ?_, onlyReg_refresh_setReg { s with pc := wadd s.pc 1 } _ _ _⟩
    show ((reg (refresh_cc _ _) _ : Nat) : Int) = _
    rw [reg_refresh_setReg _ _ _ _ hrl, hr]
    exact wadd_toWord _ _
  · intro hcop hI hadr
    have e : step s = add { s with pc := wadd s.pc 1 } (fetch s) (wsub (wadd s.pc 1) 1) := by
      rw [step_of_plain s hpc (by rw [hcop]; decide)]; simp [decode_execute, hcop]
    rw [e, add_memory_eq _ _ _ hI (by rw [hg, hds]; omega)]
    refine ⟨rfl, ?_, onlyReg_refresh_setReg { s with pc := wadd s.pc 1 } _ _ _⟩
    show reg (refresh_cc _ _) _ = _
    rw [reg_refresh_setReg _ _ _ _ hrl, hr, hg, hd]
    rfl
  · intro hcop hI
    have e : step s = sub { s with pc := wadd s.pc 1 } (fetch s) (wsub (wadd s.pc 1) 1) := by
      rw [step_of_plain s hpc (by rw [hcop]; decide)]; simp [decode_execute, hcop]
    rw [e, sub_immediate_eq _ _ _ hI]
    refine ⟨rfl, ?_, onlyReg_refresh_setReg { s with pc := wadd s.pc 1 } _ _ _⟩
    show ((reg (refresh_cc _ _) _ : Nat) : Int) = _
    rw [reg_refresh_setReg _ _ _ _ hrl, hr]
    exact wsub_toWord _ _
  · intro hcop hI hadr
    have e : step s = sub { s with pc := wadd s.pc 1 } (fetch s) (wsub (wadd s.pc 1) 1) := by
      rw [step_of_plain s hpc (by rw [hcop]; decide)]; simp [decode_execute, hcop]
    rw [e, sub_memory_eq _ _ _ hI (by rw [hg, hds]; omega)]
    refine ⟨rfl, ?_, onlyReg_refresh_setReg { s with pc := wadd s.pc 1 } _ _ _⟩
    show ((reg (refresh_cc _ _) _ : Nat) : Int) = _
    rw [reg_refresh_setReg _ _ _ _ hrl, hr, hg, hd]
    exact wsub_int _ _

/-- C20 witness: `SUB R0, #1` on the freshly loaded machine, where `R0 = 0`,
wraps around to `R0 = 0xFFFFFFFF`. -/
theorem C20_add_sub_wrap_witness :
    ((step (load_program 1 [instr_sub_r0_1] 16 zeros16 8)).1 = Outcome.Continue ∧
    ((reg (step (load_program 1 [instr_sub_r0_1] 16 zeros16 8)).2
        (fetch (load_program 1 [instr_sub_r0_1] 16 zeros16 8)).regcond : Nat) : Int) =
      ((reg (load_program 1 [instr_sub_r0_1] 16 zeros16 8)
        (fetch (load_program 1 [instr_sub_r0_1] 16 zeros16 8)).regcond : Int) -
        (fetch (load_program 1 [instr_sub_r0_1] 16 zeros16 8)).value) % 4294967296 ∧
    OnlyRegChanged (load_program 1 [instr_sub_r0_1] 16 zeros16 8)
      (step (load_program 1 [instr_sub_r0_1] 16 zeros16 8)).2
      (fetch (load_program 1 [instr_sub_r0_1] 16 zeros16 8)).regcond) ∧
    reg (step (load_program 1 [instr_sub_r0_1] 16 zeros16 8)).2 0 = 4294967295 :=
  ⟨(C20_add_sub_wrap (load_program 1 [instr_sub_r0_1] 16 zeros16 8)
    (by decide) (by decide)).2.2.1 (by decide) (by decide), by decide⟩

/-- C21: a STORE without immediate flag, with source register `rs` and an
effective address `a < datasize`, makes the step return `Continue`; afterwards
`data[a]` holds the value of `rs`, and every other data cell, every register
and the condition code are as before. -/
theorem C21_store_one_cell (s : Machine) (h : s.WF) (hpc : s.pc < s.textsize)
    (hcop : (fetch s).cop = STORE) (hI : (fetch s).immediate = false)
    (hadr : get_address s (fetch s) < s.datasize) :
    (step s).1 = Outcome.Continue ∧
    readData (step s).2 (get_address s (fetch s)) = reg s (fetch s).regcond ∧
    (∀ b, b ≠ get_address s (fetch s) → readData (step s).2 b = readData s b) ∧
    (step s).2.registers = s.registers ∧
    (step s).2.cc = s.cc := by
  have hg : get_address { s with pc := wadd s.pc 1 } (fetch s) = get_address s (fetch s) := rfl
  have hds : ({ s with pc := wadd s.pc 1 } : Machine).datasize = s.datasize := rfl
  have hdl : s.data.length = s.datasize := h.2.1
  have e : step s = store { s with pc := wadd s.pc 1 } (fetch s) (wsub (wadd s.pc 1) 1) := by
    rw [step_of_plain s hpc (by rw [hcop]; decide)]; simp [decode_execute, hcop]
  rw [e, store_memory_eq _ _ _ hI (by rw [hg, hds]; omega), hg]
  refine ⟨rfl, ?_, ?_, rfl, rfl⟩
  · exact readData_writeData_same { s with pc := wadd s.pc 1 } _ _
      (by show get_address s (fetch s) < s.data.length; omega)
  · intro b hb
    exact readData_writeData_ne { s with pc := wadd s.pc 1 } _ b _ (fun e => hb e.symm)

/-- C21 witness: after `LOAD R3, #7`, the instruction `STORE R3, @2` writes 7
in the data cell 2 and nothing else. -/
theorem C21_store_one_cell_witness :
    ((step (step (load_program 2 [instr_load_r3_7, instr_store_r3_at2] 16 zeros16 8)).2).1 =
        Outcome.Continue ∧
      readData (step (step (load_program 2 [instr_load_r3_7, instr_store_r3_at2]
          16 zeros16 8)).2).2
        (get_address (step (load_program 2 [instr_load_r3_7, instr_store_r3_at2]
          16 zeros16 8)).2
          (fetch (step (load_program 2 [instr_load_r3_7, instr_store_r3_at2]
            16 zeros16 8)).2)) =
        reg (step (load_program 2 [instr_load_r3_7, instr_store_r3_at2] 16 zeros16 8)).2
          (fetch (step (load_program 2 [instr_load_r3_7, instr_store_r3_at2]
            16 zeros16 8)).2).regcond ∧
      (∀ b, b ≠ get_address (step (load_program 2 [instr_load_r3_7, instr_store_r3_at2]
            16 zeros16 8)).2
          (fetch (step (load_program 2 [instr_load_r3_7, instr_store_r3_at2]
            16 zeros16 8)).2) →
        readData (step (step (load_program 2 [instr_load_r3_7, instr_store_r3_at2]
          16 zeros16 8)).2).2 b =
          readData (step (load_program 2 [instr_load_r3_7, instr_store_r3_at2]
            16 zeros16 8)).2 b) ∧
      (step (step (load_program 2 [instr_load_r3_7, instr_store_r3_at2]
          16 zeros16 8)).2).2.registers =
        (step (load_program 2 [instr_load_r3_7, instr_store_r3_at2] 16 zeros16 8)).2.registers ∧
      (step (step (load_program 2 [instr_load_r3_7, instr_store_r3_at2] 16 zeros16 8)).2).2.cc =
        (step (load_program 2 [instr_load_r3_7, instr_store_r3_at2] 16 zeros16 8)).2.cc) ∧
    readData (step (step (load_program 2 [instr_load_r3_7, instr_store_r3_at2]
      16 zeros16 8)).2).2 2 = 7 :=
  ⟨C21_store_one_cell (step (load_program 2 [instr_load_r3_7, instr_store_r3_at2] 16 zeros16 8)).2
    (by decide) (by decide) (by decide) (by decide) (by decide), by decide⟩

/-- C22 (the code at the failing input): the one-instruction program
`BRANCH NC, @fffff`. The branch is taken and the turn returns `Continue` with
`pc = 0xFFFFF`, registers, condition code and data as before; the target is
not compared with `textsize = 1`. The following turn passes `_text[0xFFFFF]`
to `trace` before it compares `pc` with `textsize`, and the array `_text` has
the single element `_text[0]`: the turn reads outside the array and has no
defined outcome, instead of the fault `ERR_SEGTEXT` at address `0xFFFFE`. -/
theorem C22_branch_past_text :
    instr_branch_nc_atfffff.raw < 4294967296 ∧
    instr_branch_nc_atfffff.cop = BRANCH ∧ instr_branch_nc_atfffff.immediate = false ∧
    instr_branch_nc_atfffff.regcond = NC ∧
    get_address (load_program 1 [instr_branch_nc_atfffff] 16 zeros16 8)
      instr_branch_nc_atfffff = 1048575 ∧
    (step (load_program 1 [instr_branch_nc_atfffff] 16 zeros16 8)).1 = Outcome.Continue ∧
    (step (load_program 1 [instr_branch_nc_atfffff] 16 zeros16 8)).2.pc = 1048575 ∧
    (step (load_program 1 [instr_branch_nc_atfffff] 16 zeros16 8)).2.registers =
      (load_program 1 [instr_branch_nc_atfffff] 16 zeros16 8).registers ∧
    (step (load_program 1 [instr_branch_nc_atfffff] 16 zeros16 8)).2.cc =
      (load_program 1 [instr_branch_nc_atfffff] 16 zeros16 8).cc ∧
    (step (load_program 1 [instr_branch_nc_atfffff] 16 zeros16 8)).2.data =
      (load_program 1 [instr_branch_nc_atfffff] 16 zeros16 8).data ∧
    (step (load_program 1 [instr_branch_nc_atfffff] 16 zeros16 8)).2.textsize = 1 ∧
    (step (load_program 1 [instr_branch_nc_atfffff] 16 zeros16 8)).2.text.length = 1 ∧
    (step (step (load_program 1 [instr_branch_nc_atfffff] 16 zeros16 8)).2).1 =
      Outcome.Undefined ∧
    (step (step (load_program 1 [instr_branch_nc_atfffff] 16 zeros16 8)).2).1 ≠
      Outcome.Fault Error.ERR_SEGTEXT 1048574 := by
  decide

/-- C23: the effective address of an operand is the unsigned 20-bit field in
bits 12..31 when the indexed flag is clear; when it is set, it is
`(R[rindex] + offset) mod 2^32`, where `rindex` is the field in bits 12..15 and
`offset` the field in bits 16..31 read as a signed 16-bit value, so that a
negative offset is subtracted from the index register. -/
theorem C23_effective_address (s : Machine) (i : Instruction) :
    (i.indexed = false → get_address s i = i.raw / 4096 % 1048576) ∧
    (i.indexed = true →
      ((get_address s i : Nat) : Int) =
        ((reg s (i.raw / 4096 % 16) : Int) +
          (if i.raw / 65536 % 65536 < 32768 then ((i.raw / 65536 % 65536 : Nat) : Int)
           else ((i.raw / 65536 % 65536 : Nat) : Int) - 65536)) % 4294967296) ∧
    (i.indexed = true → 32768 ≤ i.raw / 65536 % 65536 →
      65536 - i.raw / 65536 % 65536 ≤ reg s (i.raw / 4096 % 16) →
      reg s (i.raw / 4096 % 16) < 4294967296 →
      get_address s i = reg s (i.raw / 4096 % 16) - (65536 - i.raw / 65536 % 65536)) := by
  have hx : i.indexed = true → ((get_address s i : Nat) : Int) =
      ((reg s (i.raw / 4096 % 16) : Int) +
        (if i.raw / 65536 % 65536 < 32768 then ((i.raw / 65536 % 65536 : Nat) : Int)
         else ((i.raw / 65536 % 65536 : Nat) : Int) - 65536)) % 4294967296 := by
    intro h
    unfold get_address
    rw [if_pos h]
    exact wadd_toWord _ _
  refine ⟨?_, hx, ?_⟩
  · intro h
    unfold get_address
    simp [h, Instruction.address]
  · intro h h1 h2 h3
    have := hx h
    rw [if_neg (by omega)] at this
    omega

/-- C24: when the step returns a fault, the data segment, the condition code
and the registers 0..14 after the step are those of before the step; only
register 15 (SP), which RET and POP increment before their stack check, and
`pc` may differ. -/
theorem C24_fault_atomicity (s : Machine) (e : Error) (a : Nat)
    (hf : (step s).1 = Outcome.Fault e a) :
    (step s).2.data = s.data ∧ (step s).2.cc = s.cc ∧
    ∀ r, r < 15 → reg (step s).2 r = reg s r := by
  rcases step_fault_frame s with hc | hframe
  · rw [hc] at hf; cases hf
  · exact hframe

/-- C24 witness: a RET on the freshly loaded machine (`SP = 15`,
`datasize = 16`) returns the stack fault; SP has become 16 and `pc` 1, the
data, the condition code and the registers 0..14 are as before. -/
theorem C24_fault_atomicity_witness :
    (step (load_program 1 [instr_ret] 16 zeros16 8)).1 =
      Outcome.Fault Error.ERR_SEGSTACK 0 ∧
    sp (step (load_program 1 [instr_ret] 16 zeros16 8)).2 = 16 ∧
    ((step (load_program 1 [instr_ret] 16 zeros16 8)).2.data =
        (load_program 1 [instr_ret] 16 zeros16 8).data ∧
      (step (load_program 1 [instr_ret] 16 zeros16 8)).2.cc =
        (load_program 1 [instr_ret] 16 zeros16 8).cc ∧
      ∀ r, r < 15 → reg (step (load_program 1 [instr_ret] 16 zeros16 8)).2 r =
        reg (load_program 1 [instr_ret] 16 zeros16 8) r) :=
  ⟨by decide, by decide,
   C24_fault_atomicity (load_program 1 [instr_ret] 16 zeros16 8) Error.ERR_SEGSTACK 0
    (by decide)⟩

/-- C25: from a state with `pc = P`, `P + 1 < textsize` and SP inside
`[dataend, datasize)`, where `text[P]` is a PUSH with immediate flag and 20-bit
payload `v` and `text[P+1]` a POP with the absolute address `a < datasize`, two
steps both return `Continue`; afterwards `data[a]` holds the sign extension of
`v` to 32 bits, SP has its value of before the PUSH, and the condition code
and the registers 0..14 are as before. -/
theorem C25_push_pop_round_trip (s : Machine) (h : s.WF) (hpc : s.pc + 1 < s.textsize)
    (hsp : s.dataend ≤ sp s ∧ sp s < s.datasize)
    (hpush : (fetch s).cop = PUSH) (hI : (fetch s).immediate = true)
    (hpop : (s.text.getD (s.pc + 1) ⟨0⟩).cop = POP)
    (hpI : (s.text.getD (s.pc + 1) ⟨0⟩).immediate = false)
    (hpX : (s.text.getD (s.pc + 1) ⟨0⟩).indexed = false)
    (hadr : (s.text.getD (s.pc + 1) ⟨0⟩).address < s.datasize) :
    (step s).1 = Outcome.Continue ∧
    (step (step s).2).1 = Outcome.Continue ∧
    readData (step (step s).2).2 (s.text.getD (s.pc + 1) ⟨0⟩).address =
      (if (fetch s).raw / 4096 % 1048576 < 524288 then (fetch s).raw / 4096 % 1048576
       else (fetch s).raw / 4096 % 1048576 + 4293918720) ∧
    sp (step (step s).2).2 = sp s ∧
    (step (step s).2).2.cc = s.cc ∧
    (∀ r, r < 15 → reg (step (step s).2).2 r = reg s r) := by
  have hwf := h
  obtain ⟨_, hdl, hrl, hts, hds, _, _, _, _, _⟩ := h
  have hrl16 : s.registers.length = 16 := hrl
  have hpc0 : s.pc < s.textsize := by omega
  have hp1 := pc_succ s hwf hpc0
  have hspw : sp s < 4294967296 := by omega
  -- first step: the PUSH
  have hs1 : step s = (Outcome.Continue,
      setSp (writeData { s with pc := s.pc + 1 } (sp s) (toWord (fetch s).value))
        (wsub (sp s) 1)) := by
    have e : step s = push { s with pc := wadd s.pc 1 } (fetch s) (wsub (wadd s.pc 1) 1) := by
      rw [step_of_plain s hpc0 (by rw [hpush]; decide)]; simp [decode_execute, hpush]
    rw [e, hp1]
    exact push_immediate_eq { s with pc := s.pc + 1 } (fetch s) _ hI hsp
  generalize hs1d : setSp (writeData { s with pc := s.pc + 1 } (sp s) (toWord (fetch s).value))
      (wsub (sp s) 1) = s1 at hs1
  have f_pc : s1.pc = s.pc + 1 := by rw [← hs1d]; rfl
  have f_ts : s1.textsize = s.textsize := by rw [← hs1d]; rfl
  have f_tx : s1.text = s.text := by rw [← hs1d]; rfl
  have f_cc : s1.cc = s.cc := by rw [← hs1d]; rfl
  have f_de : s1.dataend = s.dataend := by rw [← hs1d]; rfl
  have f_ds : s1.datasize = s.datasize := by rw [← hs1d]; rfl
  have f_rl : s1.registers.length = 16 := by
    rw [← hs1d]; simp [setSp, setReg, writeData, hrl16]
  have f_dl : s1.data.length = s.datasize := by
    rw [← hs1d]; simp [setSp, setReg, writeData, hdl]
  have f_sp : sp s1 = wsub (sp s) 1 := by
    rw [← hs1d]
    exact sp_setSp (writeData { s with pc := s.pc + 1 } (sp s) (toWord (fetch s).value)) _
      (by show s.registers.length = 16; exact hrl16)
  have f_rd : readData s1 (sp s) = toWord (fetch s).value := by
    rw [← hs1d]
    exact readData_writeData_same { s with pc := s.pc + 1 } (sp s) _
      (by show sp s < s.data.length; omega)
  have f_rg : ∀ r, r < 15 → reg s1 r = reg s r := by
    intro r hr
    rw [← hs1d]
    exact reg_setReg_ne (writeData { s with pc := s.pc + 1 } (sp s) (toWord (fetch s).value))
      15 r _ (by omega)
  -- second step: the POP
  have hpcA : s1.pc < s1.textsize := by omega
  have hf : fetch s1 = s.text.getD (s.pc + 1) ⟨0⟩ := by
    unfold fetch; rw [f_tx, f_pc]
  have e5 : wadd (sp s1) 1 = sp s := by rw [f_sp]; exact wadd_wsub_one _ hspw
  obtain ⟨p1, hp1d⟩ : ∃ p, wadd s1.pc 1 = p := ⟨_, rfl⟩
  have hs2 : step s1 = (Outcome.Continue,
      writeData (setSp { s1 with pc := p1 } (sp s))
        (s.text.getD (s.pc + 1) ⟨0⟩).address
        (readData (setSp { s1 with pc := p1 } (sp s)) (sp s))) := by
    have hcop1 : (fetch s1).cop = POP := by rw [hf]; exact hpop
    have e : step s1 = pop { s1 with pc := wadd s1.pc 1 } (fetch s1) (wsub (wadd s1.pc 1) 1) := by
      rw [step_of_plain s1 hpcA (by rw [hcop1]; decide)]; simp [decode_execute, hcop1]
    rw [hp1d] at e
    have e1 : sp { s1 with pc := p1 } = sp s1 := rfl
    have hp := pop_absolute_eq { s1 with pc := p1 } (s.text.getD (s.pc + 1) ⟨0⟩)
      (wsub p1 1) hpI hpX
      (by show _ ≤ s1.datasize; omega) f_rl
      (by rw [e1, e5]; show s1.dataend ≤ sp s ∧ sp s < s1.datasize; omega)
    rw [e1, e5] at hp
    rw [e, hf, hp]
  have hd0 : (setSp { s1 with pc := p1 } (sp s)).data = s1.data := by
    simp [setSp, setReg]
  have hrd : readData (setSp { s1 with pc := p1 } (sp s)) (sp s) =
      toWord (fetch s).value := by
    rw [readData_congr _ s1 (sp s) hd0]; exact f_rd
  have r1 : (step s).1 = Outcome.Continue := by rw [hs1]
  have r2 : (step s).2 = s1 := by rw [hs1]
  have q1 : (step s1).1 = Outcome.Continue := by rw [hs2]
  have q2 : (step s1).2 = writeData (setSp { s1 with pc := p1 } (sp s))
      (s.text.getD (s.pc + 1) ⟨0⟩).address
      (readData (setSp { s1 with pc := p1 } (sp s)) (sp s)) := by rw [hs2]
  rw [r2, q2]
  refine ⟨r1, q1, ?_, ?_, f_cc, ?_⟩
  · rw [← toWord_value, ← hrd]
    exact readData_writeData_same (setSp { s1 with pc := p1 } (sp s)) _ _
      (by show _ < s1.data.length; omega)
  · rw [sp_writeData]
    exact sp_setSp { s1 with pc := p1 } (sp s) f_rl
  · intro r hr
    have : reg (setSp { s1 with pc := p1 } (sp s)) r = reg s1 r :=
      reg_setReg_ne { s1 with pc := p1 } 15 r _ (by omega)
    exact this.trans (f_rg r hr)

/-- C25 witness: the program `PUSH #7; POP @2` on a freshly loaded machine with
`SP = 15`: after the two steps `data[2] = 7` and `SP = 15`. -/
theorem C25_push_pop_round_trip_witness :
    (step machine_push_pop).1 = Outcome.Continue ∧
    (step (step machine_push_pop).2).1 = Outcome.Continue ∧
    readData (step (step machine_push_pop).2).2 2 = 7 ∧
    sp (step (step machine_push_pop).2).2 = 15 ∧
    (step (step machine_push_pop).2).2.cc = Condition_Code.CC_U ∧
    (∀ r, r < 15 → reg (step (step machine_push_pop).2).2 r = reg machine_push_pop r) :=
  C25_push_pop_round_trip machine_push_pop (by decide) (by decide) (by decide) (by decide)
    (by decide) (by decide) (by decide) (by decide) (by decide)

/-- C26: in every state reached from a freshly loaded state by any number of
steps, the condition code is U, Z or P and not N, and it is still not N after
one more step whatever that step returns. Consequently, in such a state the
condition LT evaluates to false and the condition LE evaluates to true exactly
when the condition code is Z; a BRANCH or CALL with the condition LT is not
taken: the step leaves the machine as it was except for `pc`, which is the
address of the next instruction. -/
theorem C26_cc_N_unreachable (textsize : Nat) (text : List Instruction) (datasize : Nat)
    (data : List Nat) (dataend : Nat) (s : Machine)
    (hreach : ContinueReach (fun _ => True)
      (load_program textsize text datasize data dataend) s) :
    (s.cc = Condition_Code.CC_U ∨ s.cc = Condition_Code.CC_Z ∨ s.cc = Condition_Code.CC_P) ∧
    s.cc ≠ Condition_Code.CC_N ∧
    (step s).2.cc ≠ Condition_Code.CC_N ∧
    (∀ instr addr, instr.regcond = LT → allowed_condition s instr addr = .ok false) ∧
    (∀ instr addr, instr.regcond = LE →
      allowed_condition s instr addr = .ok (decide (s.cc = Condition_Code.CC_Z))) ∧
    (s.pc < s.textsize → ((fetch s).cop = BRANCH ∨ (fetch s).cop = CALL) →
      (fetch s).regcond = LT → (step s).2 = { s with pc := wadd s.pc 1 }) := by
  have hN : s.cc ≠ Condition_Code.CC_N :=
    reach_cc_ne_N _ _ s (by show Condition_Code.CC_U ≠ Condition_Code.CC_N; decide) hreach
  refine ⟨?_, hN, step_cc_ne_N s hN, ?_, ?_, ?_⟩
  · cases hc : s.cc
    · exact Or.inl rfl
    · exact Or.inr (Or.inl rfl)
    · exact Or.inr (Or.inr rfl)
    · exact absurd hc hN
  · intro instr addr h; exact allowed_condition_LT s instr addr hN h
  · intro instr addr h; exact allowed_condition_LE s instr addr hN h
  · intro hpc hop hlt
    rw [step_of_cond s hpc hop (by rw [hlt]; decide)]
    have hal : allowed_condition { s with pc := wadd s.pc 1 } (fetch s)
        (wsub (wadd s.pc 1) 1) = .ok false :=
      allowed_condition_LT _ _ _ hN hlt
    rcases hop with hc | hc
    · have e : decode_execute { s with pc := wadd s.pc 1 } (fetch s) =
          branch { s with pc := wadd s.pc 1 } (fetch s) (wsub (wadd s.pc 1) 1) := by
        simp [decode_execute, hc]
      rw [e]; exact branch_not_taken _ _ _ hal
    · have e : decode_execute { s with pc := wadd s.pc 1 } (fetch s) =
          call { s with pc := wadd s.pc 1 } (fetch s) (wsub (wadd s.pc 1) 1) := by
        simp [decode_execute, hc]
      rw [e]; exact call_not_taken _ _ _ hal

/-- C26 witness: after `LOAD R0, #-1` on a freshly loaded machine, register 0
holds `0xFFFFFFFF` and the condition code is P, not N. -/
theorem C26_cc_N_unreachable_witness :
    reg (step (load_program 1 [instr_load_r0_minus1] 16 zeros16 8)).2 0 = 4294967295 ∧
    (step (load_program 1 [instr_load_r0_minus1] 16 zeros16 8)).2.cc = Condition_Code.CC_P ∧
    (step (load_program 1 [instr_load_r0_minus1] 16 zeros16 8)).2.cc ≠ Condition_Code.CC_N :=
  ⟨by decide, by decide,
   (C26_cc_N_unreachable 1 [instr_load_r0_minus1] 16 zeros16 8
      (step (load_program 1 [instr_load_r0_minus1] 16 zeros16 8)).2
      (ContinueReach.tail ContinueReach.refl trivial (by decide))).2.1⟩

end Simulproc
